import Mathlib

/-!
# go-plan-it: the command router of package tgbot and its handlers

A shallow embedding of `pkg/tgbot/tgbot.go` (the conversation context, the
pending-reply registry, the handler table, the dispatch loop and the scheduler
adapter) and of the handlers of `internal/go-plan-it/app.go` that the
properties below are about, followed by theorems about them.

Modelling conventions.

* A Go map is its lookup function `key → Option value`; a missing key reads as
  `none`, which Go reports as `ok = false` together with the zero value.  A nil
  map and an empty map read alike, so the nil check at the top of
  `RegisterCommand` has nothing to distinguish here.
* Go's `int` is 64 bits wide; `addInt` wraps like the machine addition does.
* A handler is Go code of type `func(*Context)` living outside package tgbot.
  The fields `responseMessages`, `aborted` and `bot` are unexported, so such a
  handler acts on the context through the eight methods of `Context`.  It is
  modelled by the sequence of method calls it issues, as a function of the
  context it is entered with (`Handler`), and `execOps` performs the calls.
* The pointer `Context.bot` is represented by pairing the context with the bot
  it points to (`HandlerState`); the context of a scheduled run has a nil `bot`
  and is run by `execOpsNoBot`, and a handler the scheduler calls may also
  panic on its own (`ScheduledHandler`).
* The store, the calendar provider and the clock are inputs (`Collaborators`):
  each answer is a function of the collaborator calls made so far, and a
  handler of package go_plan_it returns the calls it made next to the method
  calls it issued on the context (`AppRun`).
* A run-time panic (nil dereference, index out of range) is the result `none`,
  or `Flow.panic` inside a loop body.
-/

namespace GoPlanIt

/-! ## Machine integers -/

/-- Two's-complement wrap of an integer into the range of Go's 64-bit `int`. -/
def wrapInt (x : Int) : Int := (x + 2 ^ 63) % 2 ^ 64 - 2 ^ 63

/-- Go's `a + b` on `int`. -/
def addInt (a b : Int) : Int := wrapInt (a + b)

/-! ## Maps -/

/-- Go's `m[k] = v`. -/
def mapSet {κ ν : Type} [DecidableEq κ] (m : κ → Option ν) (k : κ) (v : ν) : κ → Option ν :=
  fun j => if j = k then some v else m j

/-- Go's `delete(m, k)`. -/
def mapDelete {κ ν : Type} [DecidableEq κ] (m : κ → Option ν) (k : κ) : κ → Option ν :=
  fun j => if j = k then none else m j

/-! ## Data model -/

/-- Go struct `MessageWithOptions`. -/
structure MessageWithOptions where
  ParseMode : String
  DisableWebPagePreview : Bool
deriving DecidableEq, Repr

/-- The fields of `tgbotapi.MessageConfig` that this repository reads or writes. -/
structure MessageConfig where
  ChatID : Int
  Text : String
  ParseMode : String
  DisableWebPagePreview : Bool
deriving DecidableEq, Repr

/-- The parts of `tgbotapi.Message` the bot looks at: `Chat.ID`, `Text`,
`From.UserName`, and the results of `Command()` and `CommandArguments()`. -/
structure Message where
  ChatID : Int
  Text : String
  UserName : String
  Command : String
  CommandArguments : String
deriving DecidableEq, Repr

/-- The parts of `tgbotapi.Update` the bot looks at; `Message` may be nil. -/
structure Update where
  UpdateID : Int
  Message : Option Message
deriving DecidableEq, Repr

/-- Go struct `WaitForCommand`. -/
structure WaitForCommand where
  UpdateID : Int
  Command : String
deriving DecidableEq, Repr

/-- The zero value of `WaitForCommand`, which a failed map read yields. -/
instance : Inhabited WaitForCommand := ⟨⟨0, ""⟩⟩

/-- Go struct `Context` without its `bot` pointer (see `HandlerState`). -/
structure Context where
  ChatId : Int
  Command : String
  Update : Update
  responseMessages : List MessageConfig
  aborted : Bool
deriving DecidableEq, Repr

/-- One call of a method of `*Context`. -/
inductive CtxOp where
  | Abort
  | AbortWithMessage (message : String)
  | IsAborted
  | RegisterWaitForInput
  | AddMessageConfig (msg : MessageConfig)
  | AddMessage (message : String)
  | AddMessageWithOptions (message : String) (options : MessageWithOptions)
  | GetMessages
deriving DecidableEq, Repr

/-- A handler `func(*Context)`: the method calls it issues on the context it is
entered with. -/
abbrev Handler := Context → List CtxOp

/-- Go struct `Bot`: the pending-reply registry, the handler table and the
allow-list.  The transport client, scheduler, logger and timeout carry no
routing state. -/
structure Bot where
  waitFor : Int → Option WaitForCommand
  handlers : String → Option (List Handler)
  allowList : List String

/-- A context together with the bot its `bot` field points to. -/
structure HandlerState where
  context : Context
  bot : Bot

/-! ## Message construction -/

/-- Library function `tgbotapi.NewMessage`. -/
def NewMessage (chatID : Int) (text : String) : MessageConfig :=
  { ChatID := chatID, Text := text, ParseMode := "", DisableWebPagePreview := false }

/-- Go `CreateMessageWithOptions`; the variadic `options` is a list. -/
def CreateMessageWithOptions (chatId : Int) (text : String)
    (options : List MessageWithOptions) : MessageConfig :=
  let msg := NewMessage chatId text
  match options with
  | o :: _ =>
    { msg with DisableWebPagePreview := o.DisableWebPagePreview, ParseMode := o.ParseMode }
  | [] => msg

/-- Go `CreateMessage`. -/
def CreateMessage (chatId : Int) (text : String) : MessageConfig :=
  CreateMessageWithOptions chatId text []

/-! ## Methods of Context -/

namespace Context

/-- Go `(*Context).Abort`. -/
def Abort (c : Context) : Context := { c with aborted := true }

/-- Go `(*Context).AddMessage`. -/
def AddMessage (c : Context) (message : String) : Context :=
  let msg := CreateMessage c.ChatId message
  { c with responseMessages := c.responseMessages ++ [msg] }

/-- Go `(*Context).AbortWithMessage`. -/
def AbortWithMessage (c : Context) (message : String) : Context :=
  (c.AddMessage message).Abort

/-- Go `(*Context).IsAborted`. -/
def IsAborted (c : Context) : Bool := c.aborted

/-- Go `(*Context).AddMessageConfig`. -/
def AddMessageConfig (c : Context) (msg : MessageConfig) : Context :=
  { c with responseMessages := c.responseMessages ++ [msg] }

/-- Go `(*Context).AddMessageWithOptions`. -/
def AddMessageWithOptions (c : Context) (message : String)
    (options : MessageWithOptions) : Context :=
  let msg := CreateMessageWithOptions c.ChatId message [options]
  { c with responseMessages := c.responseMessages ++ [msg] }

/-- Go `(*Context).GetMessages`. -/
def GetMessages (c : Context) : List MessageConfig := c.responseMessages

end Context

/-! ## Methods of Bot -/

/-- Go `(*Bot).responseHandlerName`: `fmt.Sprintf("%s_responseHandler", command)`. -/
def responseHandlerName (command : String) : String :=
  command ++ "_responseHandler"

/-- Go `(*Context).RegisterWaitForInput`, on a context whose `bot` is set. -/
def RegisterWaitForInput (s : HandlerState) : HandlerState :=
  let command := responseHandlerName s.context.Command
  { s with bot := { s.bot with
      waitFor := mapSet s.bot.waitFor s.context.ChatId
        { UpdateID := addInt s.context.Update.UpdateID 1, Command := command } } }

/-- The key chosen by lines 129-131 of `RegisterCommand`; the variadic
`responseHandler` is a list. -/
def registerKey (command : String) (responseHandler : List Bool) : String :=
  if responseHandler.length > 0 && responseHandler.headD false then
    responseHandlerName command
  else
    command

/-- Go `(*Bot).RegisterCommand`. -/
def RegisterCommand (b : Bot) (command : String) (handlers : List Handler)
    (responseHandler : List Bool) : Bot :=
  let command := registerKey command responseHandler
  { b with handlers := mapSet b.handlers command ((b.handlers command).getD [] ++ handlers) }

/-- Go `(*Bot).defaultHandler`. -/
def defaultHandler : Handler :=
  fun _ => [CtxOp.AbortWithMessage "I don't know what to do with this message."]

/-- Go `(*Bot).getHandlers`: the chain it returns and the bot it leaves. -/
def getHandlers (b : Bot) (chatId : Int) (updateId : Int) (command : String) :
    List Handler × Bot :=
  let wait := (b.waitFor chatId).getD default
  let b' := if (b.waitFor chatId).isSome then
      { b with waitFor := mapDelete b.waitFor chatId }
    else b
  let command := if wait.UpdateID = updateId ∧ command = "" then wait.Command else command
  let handlers := match b.handlers command with
    | some handlers => handlers
    | none => [defaultHandler]
  (handlers, b')

/-! ## Running handlers -/

/-- Perform one method call on the context (and, through it, on the bot). -/
def execOp (op : CtxOp) (s : HandlerState) : HandlerState :=
  match op with
  | .Abort => { s with context := s.context.Abort }
  | .AbortWithMessage message => { s with context := s.context.AbortWithMessage message }
  | .IsAborted => s
  | .RegisterWaitForInput => RegisterWaitForInput s
  | .AddMessageConfig msg => { s with context := s.context.AddMessageConfig msg }
  | .AddMessage message => { s with context := s.context.AddMessage message }
  | .AddMessageWithOptions message options =>
    { s with context := s.context.AddMessageWithOptions message options }
  | .GetMessages => s

/-- Perform a sequence of method calls in order. -/
def execOps : List CtxOp → HandlerState → HandlerState
  | [], s => s
  | op :: ops, s => execOps ops (execOp op s)

/-- The call `handler(&context)`. -/
def runHandler (handler : Handler) (s : HandlerState) : HandlerState :=
  execOps (handler s.context) s

/-- The dispatch loop of `RunUpdatesHandler` (lines 225-230): call each handler
and stop after the first one that leaves the context aborted. -/
def runHandlers : List Handler → HandlerState → HandlerState
  | [], s => s
  | handler :: rest, s =>
    let s' := runHandler handler s
    if s'.context.IsAborted then s' else runHandlers rest s'

/-! ## Vocabulary of the specification -/

/-- The chain the handler table yields for a token: the registered chain, or
the single built-in fallback handler. -/
def chainFor (b : Bot) (token : String) : List Handler :=
  match b.handlers token with
  | some handlers => handlers
  | none => [defaultHandler]

/-- The resolution rule of the specification: the pending entry's response
token when an entry exists, its sequence number equals the update's and the
update carries no command token; the update's command token otherwise. -/
def resolvedToken (b : Bot) (chatId : Int) (updateId : Int) (command : String) : String :=
  match b.waitFor chatId with
  | some entry => if entry.UpdateID = updateId ∧ command = "" then entry.Command else command
  | none => command

/-- The messages one method call appends to the queue of a context whose
conversation is `chatId`. -/
def opMessages (chatId : Int) : CtxOp → List MessageConfig
  | .AbortWithMessage message => [CreateMessage chatId message]
  | .AddMessageConfig msg => [msg]
  | .AddMessage message => [CreateMessage chatId message]
  | .AddMessageWithOptions message options => [CreateMessageWithOptions chatId message [options]]
  | .Abort => []
  | .IsAborted => []
  | .RegisterWaitForInput => []
  | .GetMessages => []

/-- The messages a sequence of method calls appends, in call order. -/
def scriptMessages (chatId : Int) : List CtxOp → List MessageConfig
  | [] => []
  | op :: ops => opMessages chatId op ++ scriptMessages chatId ops

/-- The messages a handler adds when entered in state `s`. -/
def handlerMessages (handler : Handler) (s : HandlerState) : List MessageConfig :=
  scriptMessages s.context.ChatId (handler s.context)

/-- Run every handler of a list in order, with no abort check. -/
def runAll (handlers : List Handler) (s : HandlerState) : HandlerState :=
  handlers.foldl (fun st handler => runHandler handler st) s

/-- The concatenation, in order, of the messages added by each handler of a
list when the handlers run one after the other from `s`. -/
def messagesAdded : List Handler → HandlerState → List MessageConfig
  | [], _ => []
  | handler :: rest, s => handlerMessages handler s ++ messagesAdded rest (runHandler handler s)

/-- One call of a method that queues a message: `AddMessage`,
`AddMessageWithOptions` or `AddMessageConfig`. -/
inductive AddCall where
  | message (text : String)
  | withOptions (text : String) (options : MessageWithOptions)
  | config (msg : MessageConfig)
deriving DecidableEq, Repr

namespace AddCall

/-- Perform the call on a context. -/
def apply (call : AddCall) (c : Context) : Context :=
  match call with
  | .message text => c.AddMessage text
  | .withOptions text options => c.AddMessageWithOptions text options
  | .config msg => c.AddMessageConfig msg

/-- The text the call carries: its text argument, or the text of the message
handed to `AddMessageConfig`. -/
def text : AddCall → String
  | .message t => t
  | .withOptions t _ => t
  | .config msg => msg.Text

/-- The message the call queues on a context whose conversation is `chatId`. -/
def queued (chatId : Int) : AddCall → MessageConfig
  | .message t => CreateMessage chatId t
  | .withOptions t options => CreateMessageWithOptions chatId t [options]
  | .config msg => msg

end AddCall

/-- Perform a sequence of queueing calls in order. -/
def applyCalls (calls : List AddCall) (c : Context) : Context :=
  calls.foldl (fun ctx call => call.apply ctx) c

/-! ## The update loop and the scheduler adapter -/

/-- Go `(*Bot).SendMessages`: the messages handed to `client.Send`, one call
per message in slice order; a failed send is logged and the loop goes on. -/
def SendMessages : List MessageConfig → List MessageConfig
  | [] => []
  | message :: rest => message :: SendMessages rest

/-- The body of the loop of `RunUpdatesHandler` (lines 193-232) for one update:
the messages sent and the bot afterwards.  `From` and `Chat` of a message are
taken to be set, as the transport sets them. -/
def handleUpdate (b : Bot) (update : Update) : List MessageConfig × Bot :=
  match update.Message with
  | none => ([], b)
  | some message =>
    if b.allowList.length > 0 ∧ ¬ message.UserName ∈ b.allowList then
      let msg := CreateMessage message.ChatID "Sorry, I can't talk to you."
      (SendMessages [msg], b)
    else
      let context : Context :=
        { ChatId := message.ChatID, Command := message.Command, Update := update,
          responseMessages := [], aborted := false }
      let (handlers, b1) := getHandlers b message.ChatID update.UpdateID message.Command
      let s := runHandlers handlers ⟨context, b1⟩
      (SendMessages s.context.GetMessages, s.bot)

/-- Go `RunUpdatesHandler` on the updates received so far: the messages sent,
in order, and the bot afterwards. -/
def RunUpdatesHandler : Bot → List Update → List MessageConfig × Bot
  | b, [] => ([], b)
  | b, update :: rest =>
    let (sent, b1) := handleUpdate b update
    let (sentRest, b2) := RunUpdatesHandler b1 rest
    (sent ++ sentRest, b2)

/-- The context `scheduledHandlerWrapper` builds: only `responseMessages` and
`aborted` are given, every other field has its zero value and `bot` is nil. -/
def scheduledContext : Context :=
  { ChatId := 0, Command := "", Update := { UpdateID := 0, Message := none },
    responseMessages := [], aborted := false }

/-- One method call on a context whose `bot` is nil: `RegisterWaitForInput`
dereferences the nil pointer and panics (`none`); the other methods do not
touch the bot. -/
def execOpNoBot (op : CtxOp) (c : Context) : Option Context :=
  match op with
  | .Abort => some c.Abort
  | .AbortWithMessage message => some (c.AbortWithMessage message)
  | .IsAborted => some c
  | .RegisterWaitForInput => none
  | .AddMessageConfig msg => some (c.AddMessageConfig msg)
  | .AddMessage message => some (c.AddMessage message)
  | .AddMessageWithOptions message options => some (c.AddMessageWithOptions message options)
  | .GetMessages => some c

/-- A sequence of method calls on a context whose `bot` is nil. -/
def execOpsNoBot : List CtxOp → Context → Option Context
  | [], c => some c
  | op :: ops, c =>
    match execOpNoBot op c with
    | none => none
    | some c1 => execOpsNoBot ops c1

/-- A handler as the scheduler calls it: the method calls it issues on the
context, or `none` when it panics on its own before returning (as
`SendNotifications` does on a nil field of a chat). -/
abbrev ScheduledHandler := Context → Option (List CtxOp)

/-- Go `(*Bot).scheduledHandlerWrapper`: the messages handed to `SendMessages`,
or `none` when the call of the handler panics and `SendMessages` is not
reached. -/
def scheduledHandlerWrapper (handler : ScheduledHandler) : Option (List MessageConfig) :=
  let context := scheduledContext
  match handler context with
  | none => none
  | some ops =>
    match execOpsNoBot ops context with
    | none => none
    | some context1 => some (SendMessages context1.GetMessages)

/-! ## Package go_plan_it: data and collaborators -/

/-- The errors of the store that the handlers tell apart with `errors.Is`. -/
inductive DbError where
  | ErrRecordNotFound
  | ErrDuplicatedKey
  | other
deriving DecidableEq, Repr

/-- Go struct `Chat`; a nil pointer field is `none`.  The OAuth token and the
time stamps of the row play no part in the control flow modelled here. -/
structure Chat where
  ChatId : Int
  Registered : Bool
  ChannelId : Option String
  ChannelExpiration : Option Int
  ChannelResourceId : Option String
  CalendarId : Option String
  NextUpdateAt : Option Int
  NextEventId : Option String
deriving DecidableEq, Repr

/-- The fields of `gCalendar.EventDateTime` the handlers read. -/
structure EventDateTime where
  DateTime : String
  Date : String
deriving DecidableEq, Repr

/-- The fields of `gCalendar.Event` the handlers read; `Start` is a pointer and
may be nil. -/
structure Event where
  Id : String
  Summary : String
  HtmlLink : String
  Start : Option EventDateTime
deriving DecidableEq, Repr

/-- The fields of `gCalendar.Channel` the handlers read. -/
structure Channel where
  Id : String
  ResourceId : String
  Expiration : Int
deriving DecidableEq, Repr

/-- The fields of `gCalendar.CalendarListEntry` the handlers read. -/
structure CalendarListEntry where
  Id : String
  Summary : String
deriving DecidableEq, Repr

/-- One call to a collaborator, with the arguments that identify it (the OAuth
token and the request context, passed through unchanged, are left out). -/
inductive Call where
  | GetChatById (id : Int)
  | GetActiveChats
  | UpdateChat (chat : Chat)
  | GetCalendarsList
  | GetEventsList (calendarId : String)
  | GetEventByID (eventId calendarId : String)
  | CreateWatchChannel (calendarId webhookPath : String)
  | DeleteWatchChannel (channelId resourceId : String)
deriving DecidableEq, Repr

/-- The external collaborators: the store (`Chats`), the calendar provider and
the clock library.  Every answer may depend on the calls made so far, so the
world may change between calls; `none` and `false` stand for a returned error. -/
structure Collaborators where
  Now : List Call → Int
  Timestamp : String → Int
  DiffForHumans : List Call → String → String
  GetChatById : List Call → Int → Except DbError Chat
  GetActiveChats : List Call → Option (List Chat)
  UpdateChat : List Call → Chat → Bool
  GetCalendarsList : List Call → Option (List CalendarListEntry)
  GetEventsList : List Call → String → Option (List Event)
  GetEventByID : List Call → String → String → Option Event
  CreateWatchChannel : List Call → String → String → Option Channel
  DeleteWatchChannel : List Call → String → String → Bool

/-- What a handler of package go_plan_it has done when it returns: the method
calls issued on the context and the collaborator calls made, both in order. -/
structure AppRun where
  ops : List CtxOp
  trace : List Call
deriving DecidableEq, Repr

/-- Go constant `errorMessage`. -/
def errorMessage : String := "Something went wrong. Please try again later."

/-- Library constant `tgbotapi.ModeMarkdownV2`. -/
def ModeMarkdownV2 : String := "MarkdownV2"

/-- Library function `strconv.FormatInt(n, 10)`. -/
def FormatInt (n : Int) : String := toString n

/-! ## Strings -/

/-- Split a character sequence at every occurrence of `sep`. -/
def splitChars (sep : Char) : List Char → List (List Char)
  | [] => [[]]
  | c :: cs =>
    if c = sep then [] :: splitChars sep cs
    else
      match splitChars sep cs with
      | [] => [[c]]
      | piece :: pieces => (c :: piece) :: pieces

/-- Library function `strings.Split(s, " ")`. -/
def SplitOnSpace (s : String) : List String :=
  (splitChars ' ' s.data).map String.mk

/-- Library function `strings.Replace(s, old, "\\" + old, -1)` for a
one-character `old`: every occurrence of the character gets a backslash in
front of it. -/
def replaceWithEscaped (old : Char) : List Char → List Char
  | [] => []
  | c :: cs => if c = old then '\\' :: c :: replaceWithEscaped old cs
               else c :: replaceWithEscaped old cs

/-- Go variable `specialChars`; every entry is a one-character string. -/
def specialChars : List Char :=
  ['\\', '_', '*', '[', ']', '(', ')', '~', '\x60', '>',
   '&', '#', '-', '=', '|', '\x7b', '\x7d', '.', '!']

/-- The loop of `EventToString` (lines 535-539): the replacements applied to
the summary in list order. -/
def escapeSummary (summary : List Char) : List Char :=
  specialChars.foldl (fun acc c => replaceWithEscaped c acc) summary

/-- Go `(*App).EventToString`; `none` is the panic of reading `event.Start`
when it is nil (line 530). -/
def EventToString (env : Collaborators) (trace : List Call) (event : Event) :
    Option String :=
  match event.Start with
  | none => none
  | some eventStart =>
    let date := if eventStart.DateTime = "" then eventStart.Date else eventStart.DateTime
    let summary := String.mk (escapeSummary event.Summary.data)
    some ("[" ++ summary ++ "](" ++ event.HtmlLink ++ ") \\- " ++ env.DiffForHumans trace date)

/-! ## Package go_plan_it: handlers -/

/-- The loop of `setNextUpdateTimeForChat` (lines 556-562) on the pair
(`t`, `chat.NextEventId`); `start` is `start.Timestamp()` and `timestamp` is
`carbon.Parse(...).Timestamp()`.  Reading `e.Start.DateTime` panics (`none`)
when `e.Start` is nil. -/
def nextUpdateLoop (timestamp : String → Int) (start : Int) :
    List Event → Int × Option String → Option (Int × Option String)
  | [], state => some state
  | e :: rest, (t, nextEventId) =>
    match e.Start with
    | none => none
    | some eventStart =>
      let eventStartTime := timestamp eventStart.DateTime
      if eventStartTime > start ∧ t > eventStartTime then
        nextUpdateLoop timestamp start rest (eventStartTime, some e.Id)
      else
        nextUpdateLoop timestamp start rest (t, nextEventId)

/-- What `setNextUpdateTimeForChat` leaves: the chat as mutated through the
pointer, whether it returned nil, and the collaborator calls made so far. -/
structure SetNextResult where
  chat : Chat
  ok : Bool
  trace : List Call
deriving DecidableEq, Repr

/-- Go `(*App).setNextUpdateTimeForChat`; `none` is the panic of dereferencing
a nil `CalendarId` or a nil `Start` of a listed event.  The clock is read before
the events are fetched (`start`, line 545) and again after (`t`, line 553). -/
def setNextUpdateTimeForChat (env : Collaborators) (trace : List Call) (chat : Chat) :
    Option SetNextResult :=
  let start := env.Now trace
  match chat.CalendarId with
  | none => none
  | some calendarId =>
    let trace1 := trace ++ [Call.GetEventsList calendarId]
    match env.GetEventsList trace calendarId with
    | none => some { chat := chat, ok := false, trace := trace1 }
    | some eventsList =>
      let t := env.Now trace1 + 3600
      let chat1 := { chat with NextEventId := none }
      match nextUpdateLoop env.Timestamp start eventsList (t, chat1.NextEventId) with
      | none => none
      | some state =>
        let chat2 := { chat1 with NextEventId := state.2, NextUpdateAt := some state.1 }
        let trace2 := trace1 ++ [Call.UpdateChat chat2]
        if env.UpdateChat trace1 chat2 then some { chat := chat2, ok := true, trace := trace2 }
        else some { chat := chat2, ok := false, trace := trace2 }

/-- Go `(*App).getChatById`: the method calls issued on the context, the chat
when there is one, and the collaborator calls made so far. -/
def getChatById (env : Collaborators) (trace : List Call) (c : Context) :
    List CtxOp × Option Chat × List Call :=
  let trace1 := trace ++ [Call.GetChatById c.ChatId]
  match env.GetChatById trace c.ChatId with
  | .error DbError.ErrRecordNotFound =>
    ([.AbortWithMessage "You are not registered. Use /start to start using this bot."],
      none, trace1)
  | .error _ => ([.AbortWithMessage errorMessage], none, trace1)
  | .ok chat => ([], some chat, trace1)

/-- Go `(*App).IsRegistered`. -/
def IsRegistered (env : Collaborators) (trace : List Call) (c : Context) : AppRun :=
  match getChatById env trace c with
  | (ops, none, trace1) => { ops := ops, trace := trace1 }
  | (ops, some chat, trace1) =>
    if !chat.Registered then
      { ops := ops ++
          [.AbortWithMessage "You are not registered. Use /start to start using this bot."],
        trace := trace1 }
    else { ops := ops, trace := trace1 }

/-- Go `(*App).IsSubscribed`. -/
def IsSubscribed (env : Collaborators) (trace : List Call) (c : Context) : AppRun :=
  match getChatById env trace c with
  | (ops, none, trace1) => { ops := ops, trace := trace1 }
  | (ops, some chat, trace1) =>
    if !chat.Registered then
      { ops := ops ++
          [.AbortWithMessage "You are not registered. Use /start to start using this bot."],
        trace := trace1 }
    else if chat.CalendarId = none then
      { ops := ops ++
          [.AbortWithMessage "You are not subscribed to any calendar. Use /watch to subscribe."],
        trace := trace1 }
    else { ops := ops, trace := trace1 }

/-- Go `(*App).HandleNewEventCommand`. -/
def HandleNewEventCommand (env : Collaborators) (trace : List Call) (c : Context) : AppRun :=
  let trace1 := trace ++ [Call.GetChatById c.ChatId]
  match env.GetChatById trace c.ChatId with
  | .error _ => { ops := [.AbortWithMessage errorMessage], trace := trace1 }
  | .ok _ => { ops := [.AddMessage "What is the task?", .RegisterWaitForInput], trace := trace1 }

/-- A handler of package go_plan_it as the router sees it: the method calls it
issues on the context. -/
def toHandler (run : Context → AppRun) : Handler := fun c => (run c).ops

/-- Go `(*App).HandleWatchCommand`; `none` is a run-time panic (a nil message,
or `args[1]` out of range). -/
def HandleWatchCommand (env : Collaborators) (trace : List Call) (c : Context) :
    Option AppRun :=
  let trace1 := trace ++ [Call.GetChatById c.ChatId]
  match env.GetChatById trace c.ChatId with
  | .error _ => some { ops := [.AbortWithMessage errorMessage], trace := trace1 }
  | .ok chat =>
    match c.Update.Message with
    | none => none
    | some message =>
      if message.CommandArguments = "" then
        let trace2 := trace1 ++ [Call.GetCalendarsList]
        match env.GetCalendarsList trace1 with
        | none => some { ops := [.AbortWithMessage errorMessage], trace := trace2 }
        | some calendars =>
          some { ops := [.AddMessage "Please select a calendar you want to watch:"]
                  ++ calendars.map (fun cld =>
                      CtxOp.AddMessageWithOptions ("/watch " ++ cld.Summary ++ " " ++ cld.Id)
                        { ParseMode := "", DisableWebPagePreview := true })
                  ++ [.AddMessage "Just copy and paste one of these options."],
                 trace := trace2 }
      else
        let args := SplitOnSpace message.CommandArguments
        match args.get? 1 with
        | none => none
        | some arg1 =>
          let chat1 := { chat with CalendarId := some arg1 }
          let webhookPath := FormatInt c.ChatId
          let trace2 := trace1 ++ [Call.CreateWatchChannel arg1 webhookPath]
          match env.CreateWatchChannel trace1 arg1 webhookPath with
          | none => some { ops := [], trace := trace2 }
          | some channel =>
            let chat2 := { chat1 with
              ChannelId := some channel.Id, ChannelResourceId := some channel.ResourceId,
              ChannelExpiration := some channel.Expiration }
            match setNextUpdateTimeForChat env trace2 chat2 with
            | none => none
            | some r =>
              let ops := if r.ok then [] else [CtxOp.AbortWithMessage errorMessage]
              let success := CtxOp.AddMessage
                "Calendar successfully set. You will receive notifications about upcoming events."
              some { ops := ops ++ [success], trace := r.trace }

/-- How one pass through the body of a `for` loop ends: with the next
iteration (`continue` or the end of the body), with `return`, or with a panic. -/
inductive Flow where
  | next (run : AppRun)
  | stop (run : AppRun)
  | panic
deriving DecidableEq, Repr

/-- The body of the loop of `SendNotifications` (lines 387-446) for one chat;
`c` is the context of the scheduled run. -/
def notifyChat (env : Collaborators) (c : Context) (chat : Chat) (run : AppRun) : Flow :=
  if (match chat.NextUpdateAt with
      | some nextUpdateAt => decide (nextUpdateAt > env.Now run.trace)
      | none => false) then
    .next run
  else
    match chat.NextEventId with
    | none =>
      match setNextUpdateTimeForChat env run.trace chat with
      | none => .panic
      | some r => .next { run with trace := r.trace }
    | some nextEventId =>
      match chat.CalendarId with
      | none => .panic
      | some calendarId =>
        let trace1 := run.trace ++ [Call.GetEventByID nextEventId calendarId]
        match env.GetEventByID run.trace nextEventId calendarId with
        | none => .stop { run with trace := trace1 }
        | some e =>
          match EventToString env trace1 e with
          | none => .panic
          | some eventText =>
            let msg := CreateMessageWithOptions chat.ChatId
              ("You have a task:\n" ++ eventText)
              [{ ParseMode := ModeMarkdownV2, DisableWebPagePreview := true }]
            let ops1 := run.ops ++ [CtxOp.AddMessageConfig msg]
            match setNextUpdateTimeForChat env trace1 chat with
            | none => .panic
            | some r =>
              match r.chat.ChannelExpiration with
              | none => .panic
              | some channelExpiration =>
                if channelExpiration < env.Now r.trace then
                  let webhookPath := FormatInt c.ChatId
                  match r.chat.CalendarId with
                  | none => .panic
                  | some calendarId1 =>
                    let trace2 := r.trace ++ [Call.CreateWatchChannel calendarId1 webhookPath]
                    let problem := CtxOp.AddMessageConfig
                      (CreateMessage r.chat.ChatId "Something wrong with update channels...")
                    match env.CreateWatchChannel r.trace calendarId1 webhookPath with
                    | none => .next { ops := ops1 ++ [problem], trace := trace2 }
                    | some channel =>
                      match r.chat.ChannelResourceId with
                      | none => .panic
                      | some channelResourceId =>
                        let trace3 :=
                          trace2 ++ [Call.DeleteWatchChannel calendarId1 channelResourceId]
                        if !env.DeleteWatchChannel trace2 calendarId1 channelResourceId then
                          .next { ops := ops1 ++ [problem], trace := trace3 }
                        else
                          let chat1 := { r.chat with
                            ChannelId := some channel.Id,
                            ChannelResourceId := some channel.ResourceId }
                          let trace4 := trace3 ++ [Call.UpdateChat chat1]
                          if !env.UpdateChat trace3 chat1 then
                            .next { ops := ops1 ++ [problem], trace := trace4 }
                          else .next { ops := ops1, trace := trace4 }
                else .next { ops := ops1, trace := r.trace }

/-- The loop of `SendNotifications` over the active chats. -/
def notifyChats (env : Collaborators) (c : Context) : List Chat → AppRun → Flow
  | [], run => .next run
  | chat :: rest, run =>
    match notifyChat env c chat run with
    | .next run1 => notifyChats env c rest run1
    | .stop run1 => .stop run1
    | .panic => .panic

/-- Go `(*App).SendNotifications`; `none` is a run-time panic. -/
def SendNotifications (env : Collaborators) (trace : List Call) (c : Context) :
    Option AppRun :=
  let trace1 := trace ++ [Call.GetActiveChats]
  match env.GetActiveChats trace with
  | none => some { ops := [], trace := trace1 }
  | some chats =>
    match notifyChats env c chats { ops := [], trace := trace1 } with
    | .next run => some run
    | .stop run => some run
    | .panic => none

/-! ## Vocabulary of the specification: escaping -/

/-- The escaped form of one character: a backslash in front of it when it is a
special character, the character itself otherwise. -/
def escapeChar (c : Char) : List Char :=
  if c ∈ specialChars then ['\\', c] else [c]

/-- Escape a text character by character. -/
def escapeEachChar : List Char → List Char
  | [] => []
  | c :: cs => escapeChar c ++ escapeEachChar cs

/-- Delete the escaping backslashes: a backslash is dropped and the character
after it is kept. -/
def dropEscapes : List Char → List Char
  | [] => []
  | [c] => [c]
  | c :: d :: rest => if c = '\\' then d :: dropEscapes rest else c :: dropEscapes (d :: rest)

/-! ## Sample values -/

/-- A response handler that acknowledges the reply. -/
def sampleReply : Handler := fun _ => [CtxOp.AddMessage "reply received"]

/-- A message addressed to chat 7. -/
def sampleMessage : MessageConfig :=
  { ChatID := 7, Text := "hello", ParseMode := "", DisableWebPagePreview := false }

/-- A bot with an empty registry, an empty handler table and no allow-list. -/
def emptyBot : Bot :=
  { waitFor := fun _ => none, handlers := fun _ => none, allowList := [] }

/-- The context the update loop builds for update 7 of chat 42 carrying the
command token `new`. -/
def sampleContext : Context :=
  { ChatId := 42, Command := "new", Update := { UpdateID := 7, Message := none },
    responseMessages := [], aborted := false }

/-- A bot that talks to `alice` only and has a chain for every token. -/
def aliceBot : Bot :=
  { waitFor := fun _ => none, handlers := fun _ => some [sampleReply], allowList := ["alice"] }

/-- Update 7: `bob` sends `/new` in chat 42. -/
def bobUpdate : Update :=
  { UpdateID := 7,
    Message := some { ChatID := 42, Text := "/new", UserName := "bob", Command := "new",
                      CommandArguments := "" } }

/-- A scheduled handler that queues a message for chat 7 and aborts. -/
def sampleTick : ScheduledHandler :=
  fun _ => some [CtxOp.AddMessageConfig sampleMessage, CtxOp.Abort]

/-- A scheduled handler that queues a message and then registers a pending
reply. -/
def sampleTickWaiting : ScheduledHandler :=
  fun _ => some [CtxOp.AddMessageConfig sampleMessage, CtxOp.RegisterWaitForInput]

/-- Collaborators that know no chat and whose every call fails. -/
def failingWorld : Collaborators :=
  { Now := fun _ => 1000,
    Timestamp := fun _ => 0,
    DiffForHumans := fun _ _ => "",
    GetChatById := fun _ _ => .error .ErrRecordNotFound,
    GetActiveChats := fun _ => none,
    UpdateChat := fun _ _ => false,
    GetCalendarsList := fun _ => none,
    GetEventsList := fun _ _ => none,
    GetEventByID := fun _ _ _ => none,
    CreateWatchChannel := fun _ _ _ => none,
    DeleteWatchChannel := fun _ _ _ => false }

/-- A registered chat with nothing else set. -/
def registeredChat (id : Int) : Chat :=
  { ChatId := id, Registered := true, ChannelId := none, ChannelExpiration := none,
    ChannelResourceId := none, CalendarId := none, NextUpdateAt := none, NextEventId := none }

/-- Collaborators whose store knows every chat as registered and whose calendar
fails on every call. -/
def watchWorld : Collaborators :=
  { failingWorld with GetChatById := fun _ id => .ok (registeredChat id) }

/-- As `watchWorld`, but watch channels can be created (listing events still
fails). -/
def watchWorldWithChannel : Collaborators :=
  { watchWorld with
    CreateWatchChannel := fun _ _ _ =>
      some { Id := "ch-new", ResourceId := "res-new", Expiration := 9000 } }

/-- The context of update 8 of chat 42, sent by `alice`, with the given text
after `/watch`. -/
def watchContext (arguments : String) : Context :=
  { ChatId := 42, Command := "watch",
    Update :=
      { UpdateID := 8,
        Message := some { ChatID := 42, Text := "/watch " ++ arguments, UserName := "alice",
                          Command := "watch", CommandArguments := arguments } },
    responseMessages := [], aborted := false }

/-- An active chat that is due, waits for event `ev`, watches calendar
`calendarId` through channel `ch` on resource `res`, the channel expiring at
`expiration`. -/
def activeChat (id : Int) (calendarId : String) (expiration : Int) : Chat :=
  { ChatId := id, Registered := true, ChannelId := some "ch",
    ChannelExpiration := some expiration, ChannelResourceId := some "res",
    CalendarId := some calendarId, NextUpdateAt := some 900, NextEventId := some "ev" }

/-- Collaborators at time 1000 with the given active chats: every call
succeeds, except that no watch channel can be created on calendar `nowatch`
and event `gone` cannot be fetched. -/
def notifyWorld (chats : List Chat) : Collaborators :=
  { Now := fun _ => 1000,
    Timestamp := fun _ => 0,
    DiffForHumans := fun _ _ => "soon",
    GetChatById := fun _ _ => .error .ErrRecordNotFound,
    GetActiveChats := fun _ => some chats,
    UpdateChat := fun _ _ => true,
    GetCalendarsList := fun _ => some [],
    GetEventsList := fun _ _ => some [],
    GetEventByID := fun _ eventId _ =>
      if eventId = "gone" then none
      else some { Id := eventId, Summary := "Stand-up", HtmlLink := "http://x",
                  Start := some { DateTime := "", Date := "" } },
    CreateWatchChannel := fun _ calendarId _ =>
      if calendarId = "nowatch" then none
      else some { Id := "ch-new", ResourceId := "res-new", Expiration := 9000 },
    DeleteWatchChannel := fun _ _ _ => true }

/-- An event whose `Start.DateTime` is the given text. -/
def timedEvent (id date : String) : Event :=
  { Id := id, Summary := "", HtmlLink := "", Start := some { DateTime := date, Date := "" } }

/-- Collaborators at time 1000 whose calendar holds four events, starting at
the times their `Start.DateTime` spells out. -/
def agendaWorld : Collaborators :=
  { notifyWorld [] with
    Timestamp := fun date =>
      if date = "at 900" then 900 else if date = "at 2000" then 2000 else 3000,
    GetEventsList := fun _ _ =>
      some [timedEvent "past" "at 900", timedEvent "later" "at 3000",
            timedEvent "soon" "at 2000", timedEvent "also-soon" "at 2000"] }

/-- Collaborators whose clock reads 1000 before the first call and 1001 after
it, and whose calendar holds the given events. -/
def driftWorld (events : List Event) : Collaborators :=
  { notifyWorld [] with
    Now := fun trace => if trace = [] then 1000 else 1001,
    Timestamp := fun date => if date = "at 1001" then 1001 else 4600,
    GetEventsList := fun _ _ => some events }

/-! ## Theorems -/

/-- The chain getHandlers returns is the table's chain for the resolved token. -/
theorem getHandlers_lookup (b : Bot) (chatId updateId : Int) (command : String) :
    (getHandlers b chatId updateId command).1
      = chainFor b (resolvedToken b chatId updateId command) := by
  unfold getHandlers resolvedToken chainFor
  cases hw : b.waitFor chatId with
  | none =>
    by_cases hc : (0 : Int) = updateId ∧ command = ""
    · simp [default, hc.2]
    · simp [default, hc]
  | some entry => simp

/-- With no entry for the chat, getHandlers leaves the bot as it was. -/
theorem getHandlers_no_entry (b : Bot) (chatId updateId : Int) (command : String)
    (h : b.waitFor chatId = none) : (getHandlers b chatId updateId command).2 = b := by
  simp [getHandlers, h]

/-- C1: getHandlers looks the handler table up under the token given by the
resolution rule: the pending entry's Command exactly when the registry holds an
entry for the chat, the entry's UpdateID equals the update id and the incoming
command token is empty; the incoming command token in every other case, also
when no entry exists and the update id is 0. -/
theorem getHandlers_resolves (b : Bot) (chatId updateId : Int) (command : String) :
    (getHandlers b chatId updateId command).1
        = chainFor b (resolvedToken b chatId updateId command)
      ∧ (∀ entry, b.waitFor chatId = some entry → entry.UpdateID = updateId → command = "" →
          (getHandlers b chatId updateId command).1 = chainFor b entry.Command)
      ∧ ((¬ ∃ entry, b.waitFor chatId = some entry ∧ entry.UpdateID = updateId ∧ command = "") →
          (getHandlers b chatId updateId command).1 = chainFor b command) := by
  have key := getHandlers_lookup b chatId updateId command
  refine ⟨key, ?_, ?_⟩
  · intro entry he hu hc
    rw [key]
    simp [resolvedToken, he, hu, hc]
  · intro hno
    rw [key]
    unfold resolvedToken
    cases hw : b.waitFor chatId with
    | none => rfl
    | some entry =>
      have : ¬ (entry.UpdateID = updateId ∧ command = "") := fun h => hno ⟨entry, hw, h⟩
      simp [this]

/-- C2: one call of getHandlers leaves the pending-reply registry equal to the
registry before with the entry of the chat erased, whatever the entry, the
update id and the command token were; no other conversation's entry changes,
the handler table is untouched, and a second call for the same chat finds no
entry and resolves by its command token alone. -/
theorem getHandlers_consumes_entry (b : Bot) (chatId updateId : Int) (command : String) :
    (getHandlers b chatId updateId command).2.waitFor = mapDelete b.waitFor chatId
      ∧ (getHandlers b chatId updateId command).2.waitFor chatId = none
      ∧ (∀ other, other ≠ chatId →
          (getHandlers b chatId updateId command).2.waitFor other = b.waitFor other)
      ∧ (getHandlers b chatId updateId command).2.handlers = b.handlers
      ∧ (∀ updateId2 command2,
          (getHandlers (getHandlers b chatId updateId command).2 chatId updateId2 command2).1
              = chainFor b command2
            ∧ (getHandlers (getHandlers b chatId updateId command).2 chatId updateId2
                command2).2.waitFor = (getHandlers b chatId updateId command).2.waitFor) := by
  have hw : (getHandlers b chatId updateId command).2.waitFor = mapDelete b.waitFor chatId := by
    unfold getHandlers
    cases h : b.waitFor chatId with
    | none =>
      funext j
      by_cases hj : j = chatId
      · simp [mapDelete, hj, h]
      · simp [mapDelete, hj]
    | some entry => simp
  have hh : (getHandlers b chatId updateId command).2.handlers = b.handlers := by
    unfold getHandlers
    cases h : b.waitFor chatId <;> simp
  have hnone : (getHandlers b chatId updateId command).2.waitFor chatId = none := by
    rw [hw]; simp [mapDelete]
  refine ⟨hw, hnone, ?_, hh, ?_⟩
  · intro other ho
    rw [hw]; simp [mapDelete, ho]
  · intro updateId2 command2
    constructor
    · rw [(getHandlers_lookup (getHandlers b chatId updateId command).2 chatId updateId2 command2)]
      simp [resolvedToken, hnone, chainFor, hh]
    · rw [getHandlers_no_entry _ chatId updateId2 command2 hnone]

/-- A method call leaves the conversation identity of the context alone. -/
theorem execOp_chatId (op : CtxOp) (s : HandlerState) :
    (execOp op s).context.ChatId = s.context.ChatId := by
  cases op <;> rfl

/-- A method call extends the queue by exactly the messages it adds. -/
theorem execOp_messages (op : CtxOp) (s : HandlerState) :
    (execOp op s).context.responseMessages
      = s.context.responseMessages ++ opMessages s.context.ChatId op := by
  cases op <;>
    simp [execOp, opMessages, RegisterWaitForInput, Context.Abort, Context.AbortWithMessage,
      Context.AddMessage, Context.AddMessageConfig, Context.AddMessageWithOptions]

/-- A sequence of method calls leaves the conversation identity alone. -/
theorem execOps_chatId (ops : List CtxOp) (s : HandlerState) :
    (execOps ops s).context.ChatId = s.context.ChatId := by
  induction ops generalizing s with
  | nil => rfl
  | cons op ops ih => simp [execOps, ih, execOp_chatId]

/-- A sequence of method calls extends the queue by the messages it adds. -/
theorem execOps_messages (ops : List CtxOp) (s : HandlerState) :
    (execOps ops s).context.responseMessages
      = s.context.responseMessages ++ scriptMessages s.context.ChatId ops := by
  induction ops generalizing s with
  | nil => simp [execOps, scriptMessages]
  | cons op ops ih =>
    simp [execOps, scriptMessages, ih, execOp_messages, execOp_chatId, List.append_assoc]

/-- A handler extends the queue by the messages it adds. -/
theorem runHandler_messages (handler : Handler) (s : HandlerState) :
    (runHandler handler s).context.responseMessages
      = s.context.responseMessages ++ handlerMessages handler s := by
  simp [runHandler, handlerMessages, execOps_messages]

/-- Running a list of handlers without abort check extends the queue by the
messages they add. -/
theorem runAll_messages (handlers : List Handler) (s : HandlerState) :
    (runAll handlers s).context.responseMessages
      = s.context.responseMessages ++ messagesAdded handlers s := by
  induction handlers generalizing s with
  | nil => simp [runAll, messagesAdded]
  | cons handler rest ih =>
    have h := ih (runHandler handler s)
    simp only [runAll, List.foldl_cons] at h ⊢
    rw [h, runHandler_messages, messagesAdded, List.append_assoc]

/-- C3: the dispatch loop runs the handlers in registration order up to and
including the first one after whose return the context is aborted, and none
after it: the outcome is that of running exactly the first k handlers, where no
handler before the k-th left the context aborted and, unless k is the whole
chain, the k-th did.  The message queue is then the queue at entry followed by
the in-order concatenation of the messages of exactly those k handlers (on a
fresh context, that concatenation alone), and when no handler aborts, every
handler runs. -/
theorem runHandlers_stops_at_first_abort (handlers : List Handler) (s : HandlerState) :
    ∃ k, k ≤ handlers.length
      ∧ (handlers ≠ [] → 0 < k)
      ∧ runHandlers handlers s = runAll (handlers.take k) s
      ∧ (∀ j, 0 < j → j < k → (runAll (handlers.take j) s).context.IsAborted = false)
      ∧ (k < handlers.length → (runAll (handlers.take k) s).context.IsAborted = true)
      ∧ (runHandlers handlers s).context.GetMessages
          = s.context.GetMessages ++ messagesAdded (handlers.take k) s
      ∧ (s.context.GetMessages = [] →
          (runHandlers handlers s).context.GetMessages = messagesAdded (handlers.take k) s)
      ∧ ((∀ j, 0 < j → j ≤ handlers.length →
            (runAll (handlers.take j) s).context.IsAborted = false) → k = handlers.length) := by
  have main : ∀ (hs : List Handler) (st : HandlerState),
      ∃ k, k ≤ hs.length ∧ (hs ≠ [] → 0 < k) ∧ runHandlers hs st = runAll (hs.take k) st
        ∧ (∀ j, 0 < j → j < k → (runAll (hs.take j) st).context.IsAborted = false)
        ∧ (k < hs.length → (runAll (hs.take k) st).context.IsAborted = true) := by
    intro hs
    induction hs with
    | nil =>
      intro st
      exact ⟨0, le_refl _, fun h => absurd rfl h, rfl, fun j h1 h2 => absurd h1 (by omega),
        fun h => absurd h (by simp)⟩
    | cons handler rest ih =>
      intro st
      by_cases hab : (runHandler handler st).context.IsAborted = true
      · refine ⟨1, by simp, fun _ => Nat.one_pos, ?_, ?_, ?_⟩
        · simp [runHandlers, hab, runAll]
        · intro j h1 h2; omega
        · intro _; simpa [runAll] using hab
      · obtain ⟨k, hk, _, hrun, hbefore, hat⟩ := ih (runHandler handler st)
        refine ⟨k + 1, by simpa using hk, fun _ => Nat.succ_pos k, ?_, ?_, ?_⟩
        · simp only [runHandlers, hab, List.take_succ_cons]
          simpa [runAll] using hrun
        · intro j h1 h2
          cases j with
          | zero => omega
          | succ i =>
            cases i with
            | zero => simpa [runAll] using hab
            | succ i' =>
              have := hbefore (i' + 1) (Nat.succ_pos _) (by omega)
              simpa [runAll] using this
        · intro h
          have := hat (by simpa using h)
          simpa [runAll] using this
  obtain ⟨k, hk, hpos, hrun, hbefore, hat⟩ := main handlers s
  refine ⟨k, hk, hpos, hrun, hbefore, hat, ?_, ?_, ?_⟩
  · rw [hrun]; exact runAll_messages _ s
  · intro hempty
    have := runAll_messages (handlers.take k) s
    rw [hrun]
    simp only [Context.GetMessages] at hempty ⊢
    rw [this, hempty, List.nil_append]
  · intro hnever
    by_contra hne
    have hlt : k < handlers.length := lt_of_le_of_ne hk hne
    have hne' : handlers ≠ [] := by
      intro h; rw [h] at hlt; simp at hlt
    have h1 := hat hlt
    have h2 := hnever k (hpos hne') hk
    rw [h1] at h2
    exact Bool.noConfusion h2

/-- Go's addition is the mathematical one whenever the sum fits in an int. -/
theorem addInt_exact (a b : Int) (hlo : -(2 ^ 63) ≤ a + b) (hhi : a + b < 2 ^ 63) :
    addInt a b = a + b := by
  unfold addInt wrapInt
  omega

/-- The chain stored under the key of a registration is the chain stored
before followed by the new handlers. -/
theorem RegisterCommand_at_key (b : Bot) (command : String) (handlers : List Handler)
    (responseHandler : List Bool) :
    (RegisterCommand b command handlers responseHandler).handlers
        (registerKey command responseHandler)
      = some ((b.handlers (registerKey command responseHandler)).getD [] ++ handlers) := by
  simp [RegisterCommand, mapSet]

/-- A registration leaves the chain of every other key as it was. -/
theorem RegisterCommand_other_key (b : Bot) (command : String) (handlers : List Handler)
    (responseHandler : List Bool) (key : String)
    (hkey : key ≠ registerKey command responseHandler) :
    (RegisterCommand b command handlers responseHandler).handlers key = b.handlers key := by
  simp [RegisterCommand, mapSet, hkey]

/-- With the response flag set, the registration key is the derived response
token. -/
theorem registerKey_response (command : String) :
    registerKey command [true] = responseHandlerName command := by
  simp [registerKey]

/-- A chain of three handlers whose second aborts: the third never runs and the
queue holds the messages of the first two, in order. -/
theorem runHandlers_sample :
    (runHandlers
        [fun _ => [CtxOp.AddMessage "a"], fun _ => [CtxOp.AbortWithMessage "b"],
          fun _ => [CtxOp.AddMessage "c"]] ⟨sampleContext, emptyBot⟩).context
      = { sampleContext with
          responseMessages := [CreateMessage 42 "a", CreateMessage 42 "b"], aborted := true } := by
  rfl

/-- C4: with no chain yet under the response key of c, after
RegisterCommand(c, hs, true) and then RegisterWaitForInput on a context with
Command = c, ChatId = chat and Update.UpdateID = n, the call
getHandlers(chat, n+1, "") returns exactly hs; n+1 is Go's int addition, which
is the mathematical n+1 for every n below the largest int. -/
theorem pending_reply_routes_next_update (b : Bot) (c : String) (hs : List Handler)
    (ctx : Context) (chat n : Int)
    (hfree : b.handlers (responseHandlerName c) = none)
    (hc : ctx.Command = c) (hchat : ctx.ChatId = chat) (hn : ctx.Update.UpdateID = n) :
    (getHandlers (RegisterWaitForInput ⟨ctx, RegisterCommand b c hs [true]⟩).bot
        chat (addInt n 1) "").1 = hs
      ∧ (-(2 ^ 63) ≤ n + 1 → n + 1 < 2 ^ 63 →
          (getHandlers (RegisterWaitForInput ⟨ctx, RegisterCommand b c hs [true]⟩).bot
            chat (n + 1) "").1 = hs) := by
  have key : (getHandlers (RegisterWaitForInput ⟨ctx, RegisterCommand b c hs [true]⟩).bot
      chat (addInt n 1) "").1 = hs := by
    rw [getHandlers_lookup]
    have hreg := RegisterCommand_at_key b c hs [true]
    rw [registerKey_response, hfree] at hreg
    simp [resolvedToken, RegisterWaitForInput, mapSet, hc, hchat, hn, chainFor, hreg]
  refine ⟨key, ?_⟩
  intro hlo hhi
  rw [← addInt_exact n 1 hlo hhi]
  exact key

/-- Witness of C4: the empty bot, command `new`, update 7 of chat 42. -/
theorem pending_reply_routes_next_update_witness :
    emptyBot.handlers (responseHandlerName "new") = none
      ∧ sampleContext.Command = "new" ∧ sampleContext.ChatId = 42
      ∧ sampleContext.Update.UpdateID = 7
      ∧ (getHandlers (RegisterWaitForInput
            ⟨sampleContext, RegisterCommand emptyBot "new" [defaultHandler] [true]⟩).bot
          42 (addInt 7 1) "").1 = [defaultHandler] :=
  ⟨rfl, rfl, rfl, rfl,
    (pending_reply_routes_next_update emptyBot "new" [defaultHandler] sampleContext 42 7
      rfl rfl rfl rfl).1⟩

/-- C5: when the resolved command token has no chain in the handler table,
getHandlers returns the chain made of the built-in defaultHandler alone; and
running defaultHandler on any context appends exactly one message, addressed to
the context's chat id, and leaves the context aborted. -/
theorem unregistered_token_gets_defaultHandler (b : Bot) (chatId updateId : Int)
    (command : String) (hnone : b.handlers (resolvedToken b chatId updateId command) = none) :
    (getHandlers b chatId updateId command).1 = [defaultHandler]
      ∧ (∀ s : HandlerState,
          (runHandler defaultHandler s).context.GetMessages
              = s.context.GetMessages
                ++ [CreateMessage s.context.ChatId "I don't know what to do with this message."]
            ∧ (CreateMessage s.context.ChatId
                "I don't know what to do with this message.").ChatID = s.context.ChatId
            ∧ (runHandler defaultHandler s).context.GetMessages.length
                = s.context.GetMessages.length + 1
            ∧ (runHandler defaultHandler s).context.IsAborted = true
            ∧ runHandlers [defaultHandler] s = runHandler defaultHandler s) := by
  constructor
  · rw [getHandlers_lookup]
    simp [chainFor, hnone]
  · intro s
    refine ⟨?_, rfl, ?_, rfl, ?_⟩
    · simp [runHandler, defaultHandler, execOps, execOp, Context.AbortWithMessage,
        Context.AddMessage, Context.Abort, Context.GetMessages]
    · simp [runHandler, defaultHandler, execOps, execOp, Context.AbortWithMessage,
        Context.AddMessage, Context.Abort, Context.GetMessages]
    · simp [runHandlers, runHandler, defaultHandler, execOps, execOp, Context.AbortWithMessage,
        Context.AddMessage, Context.Abort, Context.IsAborted]

/-- Witness of C5: the empty bot has no chain for the token `events`. -/
theorem unregistered_token_gets_defaultHandler_witness :
    emptyBot.handlers (resolvedToken emptyBot 42 7 "events") = none
      ∧ (getHandlers emptyBot 42 7 "events").1 = [defaultHandler] :=
  ⟨rfl, (unregistered_token_gets_defaultHandler emptyBot 42 7 "events" rfl).1⟩

/-- C6: RegisterWaitForInput leaves the registry with the entry
(UpdateID = n + 1 in Go's int addition, Command = the response token of c) for
the chat of the context, whatever entry the chat had before; that token is the
key under which RegisterCommand(c, _, true) stores its chain; no other
conversation's entry changes, and the context (its message queue and abort flag
included) and the handler table are as before. -/
theorem RegisterWaitForInput_effect (s : HandlerState) :
    (RegisterWaitForInput s).bot.waitFor s.context.ChatId
        = some { UpdateID := addInt s.context.Update.UpdateID 1,
                 Command := responseHandlerName s.context.Command }
      ∧ (-(2 ^ 63) ≤ s.context.Update.UpdateID + 1 → s.context.Update.UpdateID + 1 < 2 ^ 63 →
          (RegisterWaitForInput s).bot.waitFor s.context.ChatId
            = some { UpdateID := s.context.Update.UpdateID + 1,
                     Command := responseHandlerName s.context.Command })
      ∧ responseHandlerName s.context.Command = registerKey s.context.Command [true]
      ∧ (∀ (b : Bot) (hs : List Handler),
          (RegisterCommand b s.context.Command hs [true]).handlers
              (responseHandlerName s.context.Command)
            = some ((b.handlers (responseHandlerName s.context.Command)).getD [] ++ hs))
      ∧ (∀ other, other ≠ s.context.ChatId →
          (RegisterWaitForInput s).bot.waitFor other = s.bot.waitFor other)
      ∧ (RegisterWaitForInput s).context = s.context
      ∧ (RegisterWaitForInput s).context.GetMessages = s.context.GetMessages
      ∧ (RegisterWaitForInput s).context.IsAborted = s.context.IsAborted
      ∧ (RegisterWaitForInput s).bot.handlers = s.bot.handlers := by
  refine ⟨?_, ?_, (registerKey_response _).symm, ?_, ?_, rfl, rfl, rfl, rfl⟩
  · simp [RegisterWaitForInput, mapSet]
  · intro hlo hhi
    simp [RegisterWaitForInput, mapSet, addInt_exact _ _ hlo hhi]
  · intro b hs
    have h := RegisterCommand_at_key b s.context.Command hs [true]
    rwa [registerKey_response] at h
  · intro other ho
    simp [RegisterWaitForInput, mapSet, ho]

/-- C7: RegisterCommand leaves the chain stored under its key (the token, or
the derived response token when the response flag is set) equal to the chain
stored before followed by the new handlers in order, an absent chain counting
as empty, and leaves the chain of every other key and the registry unchanged. -/
theorem RegisterCommand_appends (b : Bot) (token : String) (hs : List Handler)
    (responseHandler : List Bool) :
    (RegisterCommand b token hs responseHandler).handlers (registerKey token responseHandler)
        = some ((b.handlers (registerKey token responseHandler)).getD [] ++ hs)
      ∧ (∀ old, b.handlers (registerKey token responseHandler) = some old →
          (RegisterCommand b token hs responseHandler).handlers
            (registerKey token responseHandler) = some (old ++ hs))
      ∧ (∀ key, key ≠ registerKey token responseHandler →
          (RegisterCommand b token hs responseHandler).handlers key = b.handlers key)
      ∧ (RegisterCommand b token hs responseHandler).waitFor = b.waitFor
      ∧ registerKey token [] = token
      ∧ registerKey token [false] = token
      ∧ registerKey token [true] = responseHandlerName token
      ∧ (∀ hs2, (RegisterCommand (RegisterCommand b token hs responseHandler) token hs2
            responseHandler).handlers (registerKey token responseHandler)
          = some (((b.handlers (registerKey token responseHandler)).getD [] ++ hs) ++ hs2)) := by
  refine ⟨RegisterCommand_at_key b token hs responseHandler, ?_,
    fun key hkey => RegisterCommand_other_key b token hs responseHandler key hkey, rfl,
    by simp [registerKey], by simp [registerKey], registerKey_response token, ?_⟩
  · intro old hold
    rw [RegisterCommand_at_key, hold]
    rfl
  · intro hs2
    rw [RegisterCommand_at_key, RegisterCommand_at_key]
    rfl

/-- An update carrying a command token is looked up under that token. -/
theorem getHandlers_explicit (b : Bot) (chatId updateId : Int) (command : String)
    (hcmd : command ≠ "") : (getHandlers b chatId updateId command).1 = chainFor b command := by
  rw [getHandlers_lookup]
  unfold resolvedToken
  cases b.waitFor chatId <;> simp [hcmd]

/-- Counterexample to C8 as stated: the response chain of `new` and the plain
chain of `new_responseHandler` share one key, so registering the response chain
of `new` changes what getHandlers returns for the explicit command token
`new_responseHandler`: the update is routed to the response chain instead of
the fallback. -/
theorem response_key_collision :
    registerKey "new" [true] = registerKey "new_responseHandler" []
      ∧ (getHandlers emptyBot 42 7 "new_responseHandler").1 = [defaultHandler]
      ∧ (getHandlers (RegisterCommand emptyBot "new" [sampleReply] [true]) 42 7
          "new_responseHandler").1 = [sampleReply]
      ∧ sampleReply sampleContext ≠ defaultHandler sampleContext := by
  refine ⟨by decide, rfl, rfl, by decide⟩

/-- C8 (amended): the key of the response chain of a equals the key of the
plain chain of b exactly when b is the derived response token of a; registering
a response chain for a leaves the chain getHandlers returns unchanged for every
explicit command token other than that derived token; and an update carrying an
explicit command token is looked up under that very token, so it reaches a
response chain only when its token is itself a derived response token. -/
theorem response_key_separation (a b : String) :
    (registerKey a [true] = registerKey b [] ↔ b = responseHandlerName a)
      ∧ (∀ (bot : Bot) (hs : List Handler) (chatId updateId : Int) (command : String),
          command ≠ "" → command ≠ responseHandlerName a →
          (getHandlers (RegisterCommand bot a hs [true]) chatId updateId command).1
            = (getHandlers bot chatId updateId command).1)
      ∧ (∀ (bot : Bot) (chatId updateId : Int) (command : String), command ≠ "" →
          (getHandlers bot chatId updateId command).1 = chainFor bot command) := by
  refine ⟨?_, ?_, fun bot chatId updateId command h => getHandlers_explicit bot _ _ _ h⟩
  · simp only [registerKey_response]
    simp only [registerKey]
    constructor
    · intro h; simpa using h.symm
    · intro h; simpa using h.symm
  · intro bot hs chatId updateId command hcmd hne
    rw [getHandlers_explicit _ _ _ _ hcmd, getHandlers_explicit _ _ _ _ hcmd]
    have hkey : command ≠ registerKey a [true] := by rwa [registerKey_response]
    simp [chainFor, RegisterCommand_other_key bot a hs [true] command hkey]

/-- Witness of C8 (amended): the explicit command `events` is unaffected by
registering the response chain of `new`. -/
theorem response_key_separation_witness :
    (getHandlers (RegisterCommand emptyBot "new" [sampleReply] [true]) 42 7 "events").1
      = (getHandlers emptyBot 42 7 "events").1 :=
  (response_key_separation "new" "events").2.1 emptyBot [sampleReply] 42 7 "events"
    (by decide) (by decide)

/-- C9: Abort sets the flag and leaves the queue (and every other field)
unchanged; AbortWithMessage is AddMessage followed by Abort; IsAborted and
GetMessages change nothing; and no method call, nor any sequence of them, turns
a set flag back to unset or removes or reorders a queued message: the queue
before is an initial segment of the queue after. -/
theorem context_flag_and_queue_monotone (c : Context) :
    (c.Abort.IsAborted = true ∧ c.Abort.GetMessages = c.GetMessages
        ∧ c.Abort = { c with aborted := true })
      ∧ (∀ message, c.AbortWithMessage message = (c.AddMessage message).Abort)
      ∧ (∀ (bot : Bot) (message : String),
          execOp (.AbortWithMessage message) ⟨c, bot⟩
            = execOps [.AddMessage message, .Abort] ⟨c, bot⟩)
      ∧ (∀ bot : Bot, (execOp .IsAborted ⟨c, bot⟩).context = c
          ∧ (execOp .GetMessages ⟨c, bot⟩).context = c)
      ∧ (∀ (bot : Bot) (op : CtxOp),
          (c.IsAborted = true → (execOp op ⟨c, bot⟩).context.IsAborted = true)
            ∧ ∃ added, (execOp op ⟨c, bot⟩).context.GetMessages = c.GetMessages ++ added)
      ∧ (∀ (bot : Bot) (ops : List CtxOp),
          (c.IsAborted = true → (execOps ops ⟨c, bot⟩).context.IsAborted = true)
            ∧ ∃ added, (execOps ops ⟨c, bot⟩).context.GetMessages = c.GetMessages ++ added) := by
  have hop : ∀ (op : CtxOp) (s : HandlerState),
      s.context.aborted = true → (execOp op s).context.aborted = true := by
    intro op s h
    cases op <;>
      simp [execOp, RegisterWaitForInput, Context.Abort, Context.AbortWithMessage,
        Context.AddMessage, Context.AddMessageConfig, Context.AddMessageWithOptions, h]
  have hops : ∀ (ops : List CtxOp) (s : HandlerState),
      s.context.aborted = true → (execOps ops s).context.aborted = true := by
    intro ops
    induction ops with
    | nil => intro s h; exact h
    | cons op ops ih => intro s h; exact ih _ (hop op s h)
  refine ⟨⟨rfl, rfl, rfl⟩, fun _ => rfl, fun _ _ => rfl, fun _ => ⟨rfl, rfl⟩, ?_, ?_⟩
  · intro bot op
    exact ⟨fun h => hop op ⟨c, bot⟩ h, _, execOp_messages op ⟨c, bot⟩⟩
  · intro bot ops
    exact ⟨fun h => hops ops ⟨c, bot⟩ h, _, execOps_messages ops ⟨c, bot⟩⟩

/-- A queueing call leaves the conversation identity alone and appends the
message it queues. -/
theorem AddCall_apply_effect (call : AddCall) (c : Context) :
    (call.apply c).ChatId = c.ChatId
      ∧ (call.apply c).responseMessages = c.responseMessages ++ [call.queued c.ChatId] := by
  cases call <;>
    simp [AddCall.apply, AddCall.queued, Context.AddMessage, Context.AddMessageConfig,
      Context.AddMessageWithOptions]

/-- A sequence of queueing calls appends the messages it queues, in order. -/
theorem applyCalls_messages (calls : List AddCall) (c : Context) :
    (applyCalls calls c).ChatId = c.ChatId
      ∧ (applyCalls calls c).responseMessages
          = c.responseMessages ++ calls.map (AddCall.queued c.ChatId) := by
  induction calls generalizing c with
  | nil => simp [applyCalls]
  | cons call rest ih =>
    have h := ih (call.apply c)
    have he := AddCall_apply_effect call c
    simp only [applyCalls, List.foldl_cons] at h ⊢
    rw [h.1, h.2, he.1, he.2]
    simp

/-- Counterexample to C10 as stated: on a context of chat 42, AddMessageConfig
with a message addressed to chat 7 queues a message that is not addressed to
the context's chat id. -/
theorem AddMessageConfig_keeps_own_address :
    sampleContext.ChatId = 42
      ∧ (applyCalls [AddCall.config sampleMessage] sampleContext).GetMessages = [sampleMessage]
      ∧ ((applyCalls [AddCall.config sampleMessage] sampleContext).GetMessages.map
          MessageConfig.ChatID) = [7]
      ∧ ¬ (∀ m ∈ (applyCalls [AddCall.config sampleMessage] sampleContext).GetMessages,
            m.ChatID = sampleContext.ChatId) := by
  refine ⟨rfl, rfl, rfl, ?_⟩
  intro h
  have := h sampleMessage (by simp [applyCalls, AddCall.apply, Context.AddMessageConfig,
    Context.GetMessages, sampleContext])
  revert this
  decide

/-- C10 (amended): after N calls of AddMessage, AddMessageWithOptions and
AddMessageConfig in any mix, GetMessages returns the previous queue followed by
exactly N messages in call order whose texts are the texts of the calls; the
messages of AddMessage and AddMessageWithOptions are addressed to the context's
chat id, and AddMessageConfig queues the given message as it is, addressed to
whatever chat the caller put in it; on a fresh context the queue is exactly
those N messages. -/
theorem add_calls_queue_in_order (c : Context) (calls : List AddCall) :
    (applyCalls calls c).GetMessages = c.GetMessages ++ calls.map (AddCall.queued c.ChatId)
      ∧ (applyCalls calls c).GetMessages.length = c.GetMessages.length + calls.length
      ∧ (calls.map (AddCall.queued c.ChatId)).map MessageConfig.Text = calls.map AddCall.text
      ∧ (∀ text, (AddCall.queued c.ChatId (.message text)).ChatID = c.ChatId)
      ∧ (∀ text options, (AddCall.queued c.ChatId (.withOptions text options)).ChatID = c.ChatId)
      ∧ (∀ msg, AddCall.queued c.ChatId (.config msg) = msg)
      ∧ (c.GetMessages = [] →
          (applyCalls calls c).GetMessages = calls.map (AddCall.queued c.ChatId)
            ∧ (applyCalls calls c).GetMessages.length = calls.length) := by
  have hq := (applyCalls_messages calls c).2
  refine ⟨hq, ?_, ?_, fun _ => rfl, fun _ _ => rfl, fun _ => rfl, ?_⟩
  · simp [Context.GetMessages, hq]
  · simp only [List.map_map]
    apply List.map_congr_left
    intro call _
    cases call <;> rfl
  · intro hempty
    simp only [Context.GetMessages] at hempty ⊢
    rw [hq, hempty]
    simp

/-- Witness of C10 (amended): three calls, one of each kind, on the fresh
sample context. -/
theorem add_calls_queue_in_order_witness :
    (applyCalls
        [AddCall.message "a", AddCall.withOptions "b" ⟨"Markdown", true⟩,
          AddCall.config sampleMessage] sampleContext).GetMessages
      = [⟨42, "a", "", false⟩, ⟨42, "b", "Markdown", true⟩, sampleMessage] :=
  ((add_calls_queue_in_order sampleContext
    [AddCall.message "a", AddCall.withOptions "b" ⟨"Markdown", true⟩,
      AddCall.config sampleMessage]).2.2.2.2.2.2 rfl).1

/-- The messages handed to the transport are the messages given, in order. -/
theorem SendMessages_eq (messages : List MessageConfig) : SendMessages messages = messages := by
  induction messages with
  | nil => rfl
  | cons m rest ih => simp [SendMessages, ih]

/-- C11: an update carrying a message is rejected exactly when the allow-list
is non-empty and the sender's user name is not in it.  A rejected update sends
exactly one message, the fixed rejection text addressed to the update's chat,
and leaves the bot (pending-reply registry and handler table) as it was,
whatever the handler table holds; an update that is not rejected is dispatched:
the chain of getHandlers runs on a fresh context and its queue is sent. -/
theorem handleUpdate_allow_list (b : Bot) (update : Update) (message : Message)
    (hmsg : update.Message = some message) :
    ((b.allowList ≠ [] ∧ message.UserName ∉ b.allowList) →
        handleUpdate b update
            = ([CreateMessage message.ChatID "Sorry, I can't talk to you."], b)
          ∧ (handleUpdate b update).1.length = 1
          ∧ (∀ m ∈ (handleUpdate b update).1, m.ChatID = message.ChatID)
          ∧ (handleUpdate b update).2.waitFor = b.waitFor
          ∧ (handleUpdate b update).2.handlers = b.handlers
          ∧ (∀ b2 : Bot, b2.allowList = b.allowList →
              (handleUpdate b2 update).1 = (handleUpdate b update).1))
      ∧ (¬ (b.allowList ≠ [] ∧ message.UserName ∉ b.allowList) →
          handleUpdate b update
            = ((runHandlers (getHandlers b message.ChatID update.UpdateID message.Command).1
                  ⟨{ ChatId := message.ChatID, Command := message.Command, Update := update,
                     responseMessages := [], aborted := false },
                   (getHandlers b message.ChatID update.UpdateID message.Command).2⟩
                ).context.GetMessages,
               (runHandlers (getHandlers b message.ChatID update.UpdateID message.Command).1
                  ⟨{ ChatId := message.ChatID, Command := message.Command, Update := update,
                     responseMessages := [], aborted := false },
                   (getHandlers b message.ChatID update.UpdateID message.Command).2⟩).bot)) := by
  have hcond : ∀ bot : Bot, (bot.allowList.length > 0 ∧ ¬ message.UserName ∈ bot.allowList)
      ↔ (bot.allowList ≠ [] ∧ message.UserName ∉ bot.allowList) := by
    intro bot
    have hlen : bot.allowList.length > 0 ↔ bot.allowList ≠ [] := by
      cases bot.allowList <;> simp
    rw [hlen]
  have hrej : ∀ bot : Bot, (bot.allowList ≠ [] ∧ message.UserName ∉ bot.allowList) →
      handleUpdate bot update
        = ([CreateMessage message.ChatID "Sorry, I can't talk to you."], bot) := by
    intro bot h
    unfold handleUpdate
    rw [hmsg]
    simp only [if_pos ((hcond bot).2 h), SendMessages]
  constructor
  · intro h
    have h1 := hrej b h
    refine ⟨h1, by rw [h1]; rfl, ?_, by rw [h1], by rw [h1], ?_⟩
    · intro m hm
      rw [h1] at hm
      simp only [List.mem_singleton] at hm
      rw [hm]; rfl
    · intro b2 hb2
      rw [h1, hrej b2 (by rw [hb2]; exact h)]
  · intro h
    unfold handleUpdate
    rw [hmsg]
    simp only [if_neg (fun hc => h ((hcond b).1 hc)), SendMessages_eq]

/-- Witness of C11: with allow-list {alice}, the update from bob yields the one
rejection message although a chain is registered for its command. -/
theorem handleUpdate_allow_list_witness :
    bobUpdate.Message
        = some { ChatID := 42, Text := "/new", UserName := "bob", Command := "new",
                 CommandArguments := "" }
      ∧ (aliceBot.allowList ≠ [] ∧ "bob" ∉ aliceBot.allowList)
      ∧ handleUpdate aliceBot bobUpdate
          = ([CreateMessage 42 "Sorry, I can't talk to you."], aliceBot) :=
  ⟨rfl, ⟨by decide, by decide⟩,
    ((handleUpdate_allow_list aliceBot bobUpdate _ rfl).1 ⟨by decide, by decide⟩).1⟩

/-- On a context without bot, a sequence of method calls that holds no
RegisterWaitForInput goes through and extends the queue by its messages. -/
theorem execOpsNoBot_messages (ops : List CtxOp) (c : Context)
    (h : CtxOp.RegisterWaitForInput ∉ ops) :
    ∃ c1, execOpsNoBot ops c = some c1
      ∧ c1.responseMessages = c.responseMessages ++ scriptMessages c.ChatId ops := by
  induction ops generalizing c with
  | nil => exact ⟨c, rfl, by simp [scriptMessages]⟩
  | cons op ops ih =>
    have hop : op ≠ CtxOp.RegisterWaitForInput := fun e => h (by simp [e])
    have hops : CtxOp.RegisterWaitForInput ∉ ops := fun e => h (by simp [e])
    have hstep : ∃ c0, execOpNoBot op c = some c0 ∧ c0.ChatId = c.ChatId
        ∧ c0.responseMessages = c.responseMessages ++ opMessages c.ChatId op := by
      cases op <;>
        first
        | exact absurd rfl hop
        | exact ⟨_, rfl, rfl, by simp [opMessages, Context.Abort, Context.AbortWithMessage,
            Context.AddMessage, Context.AddMessageConfig, Context.AddMessageWithOptions]⟩
    obtain ⟨c0, h0, hid, hq⟩ := hstep
    obtain ⟨c1, h1, hq1⟩ := ih c0 hops
    refine ⟨c1, by simp [execOpsNoBot, h0, h1], ?_⟩
    rw [hq1, hq, hid, scriptMessages, List.append_assoc]

/-- On a context without bot, a sequence of method calls that holds a
RegisterWaitForInput panics. -/
theorem execOpsNoBot_panics (ops : List CtxOp) (c : Context)
    (h : CtxOp.RegisterWaitForInput ∈ ops) : execOpsNoBot ops c = none := by
  induction ops generalizing c with
  | nil => simp at h
  | cons op ops ih =>
    cases hstep : execOpNoBot op c with
    | none => simp [execOpsNoBot, hstep]
    | some c0 =>
      have hop : op ≠ CtxOp.RegisterWaitForInput := by
        intro e; rw [e] at hstep; simp [execOpNoBot] at hstep
      have hin : CtxOp.RegisterWaitForInput ∈ ops := by
        rcases List.mem_cons.1 h with e | e
        · exact absurd e.symm hop
        · exact e
      simp [execOpsNoBot, hstep, ih c0 hin]

/-- A scheduled handler seen through the method calls it issues: when it panics
on its own, or issues a RegisterWaitForInput, the wrapper never reaches
SendMessages; otherwise the wrapper hands over the messages of its calls, in
order, whether or not an Abort is among them. -/
theorem scheduledHandlerWrapper_outcome (handler : ScheduledHandler) :
    (handler scheduledContext = none → scheduledHandlerWrapper handler = none)
      ∧ (∀ ops, handler scheduledContext = some ops → CtxOp.RegisterWaitForInput ∈ ops →
          scheduledHandlerWrapper handler = none)
      ∧ (∀ ops, handler scheduledContext = some ops → CtxOp.RegisterWaitForInput ∉ ops →
          scheduledHandlerWrapper handler = some (scriptMessages 0 ops)) := by
  refine ⟨?_, ?_, ?_⟩
  · intro h
    simp [scheduledHandlerWrapper, h]
  · intro ops hops h
    simp [scheduledHandlerWrapper, hops, execOpsNoBot_panics _ _ h]
  · intro ops hops h
    obtain ⟨c1, h1, hq⟩ := execOpsNoBot_messages ops scheduledContext h
    have hw : scheduledHandlerWrapper handler = some c1.GetMessages := by
      simp [scheduledHandlerWrapper, hops, h1, SendMessages_eq]
    rw [hw, Context.GetMessages, hq]
    simp [scheduledContext]

/-- C12, the code at a failing input: a scheduled handler that queues a message
and then calls RegisterWaitForInput.  The context scheduledHandlerWrapper
builds has no bot, the call dereferences the nil pointer and panics, and
nothing is handed to SendMessages; on the same context with a bot set, as the
update loop sets it, the same calls go through and the message is in the
queue.  A scheduled handler that queues the message and aborts has it
delivered. -/
theorem scheduled_handler_waiting_panics :
    sampleTickWaiting scheduledContext
        = some [CtxOp.AddMessageConfig sampleMessage, CtxOp.RegisterWaitForInput]
      ∧ scheduledHandlerWrapper sampleTickWaiting = none
      ∧ (execOps [CtxOp.AddMessageConfig sampleMessage, CtxOp.RegisterWaitForInput]
          ⟨scheduledContext, emptyBot⟩).context.GetMessages = [sampleMessage]
      ∧ sampleTick scheduledContext
          = some [CtxOp.AddMessageConfig sampleMessage, CtxOp.Abort]
      ∧ scheduledHandlerWrapper sampleTick = some [sampleMessage] := by
  exact ⟨rfl, rfl, rfl, rfl, rfl⟩

/-- C13: for a conversation that is not registered (the store has no record for
its id, or the record has Registered = false), a chain whose first handler is
IsSubscribed or IsRegistered, run with the loop's short-circuit rule, ends after
that first handler: the context is aborted, the one message "You are not
registered. Use /start to start using this bot." is added (the only outbound
message on a fresh context), no later handler runs and the pending-reply
registry is untouched.  The chain main registers under "new" is
[IsSubscribed, HandleNewEventCommand]. -/
theorem unregistered_chat_stops_chain (env : Collaborators) (trace : List Call)
    (s : HandlerState)
    (hunreg : env.GetChatById trace s.context.ChatId = .error .ErrRecordNotFound
      ∨ ∃ chat, env.GetChatById trace s.context.ChatId = .ok chat ∧ chat.Registered = false) :
    (∀ rest : List Handler,
        runHandlers (toHandler (IsSubscribed env trace) :: rest) s
          = ⟨{ s.context with
                responseMessages := s.context.responseMessages ++
                  [CreateMessage s.context.ChatId
                    "You are not registered. Use /start to start using this bot."],
                aborted := true }, s.bot⟩)
      ∧ (∀ rest : List Handler,
        runHandlers (toHandler (IsRegistered env trace) :: rest) s
          = ⟨{ s.context with
                responseMessages := s.context.responseMessages ++
                  [CreateMessage s.context.ChatId
                    "You are not registered. Use /start to start using this bot."],
                aborted := true }, s.bot⟩)
      ∧ (∀ (trace2 : List Call) (b : Bot) (chatId updateId : Int),
          b.handlers "new" = none →
          (getHandlers
              (RegisterCommand b "new"
                [toHandler (IsSubscribed env trace), toHandler (HandleNewEventCommand env trace2)]
                []) chatId updateId "new").1
            = [toHandler (IsSubscribed env trace), toHandler (HandleNewEventCommand env trace2)])
      ∧ (s.context.GetMessages = [] → s.context.IsAborted = false →
          ∀ trace2 : List Call,
            (runHandlers
                [toHandler (IsSubscribed env trace), toHandler (HandleNewEventCommand env trace2)]
                s).context.GetMessages
              = [CreateMessage s.context.ChatId
                  "You are not registered. Use /start to start using this bot."]
            ∧ (runHandlers
                [toHandler (IsSubscribed env trace), toHandler (HandleNewEventCommand env trace2)]
                s).context.IsAborted = true
            ∧ (runHandlers
                [toHandler (IsSubscribed env trace), toHandler (HandleNewEventCommand env trace2)]
                s).bot.waitFor = s.bot.waitFor) := by
  have hsub : ∀ rest : List Handler,
      runHandlers (toHandler (IsSubscribed env trace) :: rest) s
        = ⟨{ s.context with
              responseMessages := s.context.responseMessages ++
                [CreateMessage s.context.ChatId
                  "You are not registered. Use /start to start using this bot."],
              aborted := true }, s.bot⟩ := by
    intro rest
    rcases hunreg with h | ⟨chat, h, hr⟩
    · simp [runHandlers, runHandler, toHandler, IsSubscribed, getChatById, h, execOps, execOp,
        Context.AbortWithMessage, Context.AddMessage, Context.Abort, Context.IsAborted]
    · simp [runHandlers, runHandler, toHandler, IsSubscribed, getChatById, h, hr, execOps, execOp,
        Context.AbortWithMessage, Context.AddMessage, Context.Abort, Context.IsAborted]
  refine ⟨hsub, ?_, ?_, ?_⟩
  · intro rest
    rcases hunreg with h | ⟨chat, h, hr⟩
    · simp [runHandlers, runHandler, toHandler, IsRegistered, getChatById, h, execOps, execOp,
        Context.AbortWithMessage, Context.AddMessage, Context.Abort, Context.IsAborted]
    · simp [runHandlers, runHandler, toHandler, IsRegistered, getChatById, h, hr, execOps, execOp,
        Context.AbortWithMessage, Context.AddMessage, Context.Abort, Context.IsAborted]
  · intro trace2 b chatId updateId hnone
    rw [getHandlers_explicit _ _ _ _ (by decide)]
    have hreg := RegisterCommand_at_key b "new"
      [toHandler (IsSubscribed env trace), toHandler (HandleNewEventCommand env trace2)] []
    have hk : registerKey "new" [] = "new" := by simp [registerKey]
    rw [hk, hnone] at hreg
    simp [chainFor, hreg]
  · intro hempty _ trace2
    rw [hsub]
    simp only [Context.GetMessages] at hempty
    simp [Context.GetMessages, Context.IsAborted, hempty]

/-- Witness of C13: chat 42 is unknown to the store. -/
theorem unregistered_chat_stops_chain_witness :
    failingWorld.GetChatById [] sampleContext.ChatId = .error .ErrRecordNotFound
      ∧ (runHandlers
          [toHandler (IsSubscribed failingWorld []),
            toHandler (HandleNewEventCommand failingWorld [])]
          ⟨sampleContext, emptyBot⟩).context
        = { sampleContext with
            responseMessages :=
              [CreateMessage 42 "You are not registered. Use /start to start using this bot."],
            aborted := true } :=
  ⟨rfl, by
    have h := (unregistered_chat_stops_chain failingWorld [] ⟨sampleContext, emptyBot⟩
      (Or.inl rfl)).1 [toHandler (HandleNewEventCommand failingWorld [])]
    rw [h]
    rfl⟩

/-- C14, the code at two failing inputs.  When CreateWatchChannel fails,
HandleWatchCommand returns without any call on the context: no abort, no
message.  When setNextUpdateTimeForChat fails, it calls AbortWithMessage and
then still adds the success message: two messages, the second one the success
text.  (A failing GetChatById does end with the one generic message.) -/
theorem HandleWatchCommand_failure_paths :
    (HandleWatchCommand watchWorld [] (watchContext "Work cal1")).map AppRun.ops = some []
      ∧ (HandleWatchCommand watchWorldWithChannel [] (watchContext "Work cal1")).map AppRun.ops
          = some [CtxOp.AbortWithMessage errorMessage,
              CtxOp.AddMessage
                "Calendar successfully set. You will receive notifications about upcoming events."]
      ∧ (HandleWatchCommand failingWorld [] (watchContext "Work cal1")).map AppRun.ops
          = some [CtxOp.AbortWithMessage errorMessage] := by
  refine ⟨by rfl, by rfl, by rfl⟩

/-- C15, the code at a failing input: for the non-empty arguments `primary` the
split on single spaces has one element only, the read of args[1] is out of
range and HandleWatchCommand panics. -/
theorem HandleWatchCommand_one_argument_panics :
    (watchContext "primary").Update.Message.map Message.CommandArguments = some "primary"
      ∧ SplitOnSpace "primary" = ["primary"]
      ∧ (SplitOnSpace "primary").get? 1 = none
      ∧ HandleWatchCommand watchWorld [] (watchContext "primary") = none := by
  refine ⟨by rfl, by decide, by decide, by rfl⟩

/-- C16, the code at a failing input: for the active chat 42 with calendar
`cal`, stored channel `ch` on resource `res` and an expired channel,
SendNotifications creates the new channel with webhook path "0", the chat id of
the scheduled context, not "42"; and it stops the channel identified by the
calendar id `cal` and resource `res`, not by the stored channel id `ch`.
HandleWatchCommand does pass the chat's own id. -/
theorem SendNotifications_channel_renewal :
    (SendNotifications (notifyWorld [activeChat 42 "cal" 500]) [] scheduledContext).map
        (fun run => run.trace.filter (fun call =>
          match call with
          | .CreateWatchChannel _ _ => true
          | .DeleteWatchChannel _ _ => true
          | _ => false))
      = some [Call.CreateWatchChannel "cal" "0", Call.DeleteWatchChannel "cal" "res"]
      ∧ FormatInt 42 = "42"
      ∧ (activeChat 42 "cal" 500).ChannelId = some "ch"
      ∧ (HandleWatchCommand watchWorldWithChannel [] (watchContext "Work cal1")).map
          (fun run => run.trace.filter (fun call =>
            match call with
            | .CreateWatchChannel _ _ => true
            | _ => false))
        = some [Call.CreateWatchChannel "cal1" "42"] := by
  refine ⟨by rfl, by rfl, by rfl, by rfl⟩

/-- The loop over a list of chats followed by more chats: the second part runs
from where the first part ends, unless the first part returned or panicked. -/
theorem notifyChats_append (env : Collaborators) (c : Context) (pre rest : List Chat)
    (run : AppRun) :
    notifyChats env c (pre ++ rest) run
      = match notifyChats env c pre run with
        | .next run1 => notifyChats env c rest run1
        | .stop run1 => .stop run1
        | .panic => .panic := by
  induction pre generalizing run with
  | nil => simp [notifyChats]
  | cons chat pre ih =>
    simp only [List.cons_append, notifyChats]
    cases notifyChat env c chat run with
    | next run1 => simpa using ih run1
    | stop run1 => rfl
    | panic => rfl

/-- Counterexample to C17 as stated: the first of two due chats cannot get a new
watch channel (CreateWatchChannel fails); the run goes on, queues the event
message of the second chat and updates the second chat's record. -/
theorem SendNotifications_goes_on_after_channel_failure :
    (notifyWorld []).CreateWatchChannel [] "nowatch" "0" = none
      ∧ (SendNotifications
            (notifyWorld [activeChat 1 "nowatch" 500, activeChat 2 "cal" 5000]) []
            scheduledContext).map
          (fun run => (scriptMessages 0 run.ops).map MessageConfig.ChatID)
        = some [1, 1, 2]
      ∧ (SendNotifications
            (notifyWorld [activeChat 1 "nowatch" 500, activeChat 2 "cal" 5000]) []
            scheduledContext).map
          (fun run => run.trace.filterMap (fun call =>
            match call with
            | .CreateWatchChannel calendarId _ => some ("create " ++ calendarId)
            | .UpdateChat chat => some ("update " ++ FormatInt chat.ChatId)
            | _ => none))
        = some ["update 1", "create nowatch", "update 2"] := by
  refine ⟨by rfl, by rfl, by rfl⟩

/-- C17 (amended): the body of the loop of SendNotifications returns exactly
when the chat is due, has a next event and GetEventByID fails for it, and it
returns at that point, with nothing queued and no call made after the failed
one; then no chat later in the list is processed in that run.  A failure of
setNextUpdateTimeForChat, CreateWatchChannel, DeleteWatchChannel or UpdateChat
never makes the body return. -/
theorem SendNotifications_returns_on_GetEventByID_only (env : Collaborators) (c : Context)
    (chat : Chat) (run : AppRun) :
    (∀ r, notifyChat env c chat run = .stop r ↔
        ((¬ ∃ t, chat.NextUpdateAt = some t ∧ t > env.Now run.trace)
          ∧ ∃ eventId calendarId, chat.NextEventId = some eventId
              ∧ chat.CalendarId = some calendarId
              ∧ env.GetEventByID run.trace eventId calendarId = none
              ∧ r = { run with trace := run.trace ++ [Call.GetEventByID eventId calendarId] }))
      ∧ (∀ (pre suf : List Chat) (run0 r : AppRun),
          notifyChats env c pre run0 = .next run → notifyChat env c chat run = .stop r →
          notifyChats env c (pre ++ chat :: suf) run0 = .stop r)
      ∧ (∀ (pre suf : List Chat) (trace0 : List Call) (r : AppRun),
          env.GetActiveChats trace0 = some (pre ++ chat :: suf) →
          notifyChats env c pre { ops := [], trace := trace0 ++ [Call.GetActiveChats] }
            = .next run →
          notifyChat env c chat run = .stop r →
          SendNotifications env trace0 c = some r) := by
  have happ : ∀ (pre suf : List Chat) (run0 r : AppRun),
      notifyChats env c pre run0 = .next run → notifyChat env c chat run = .stop r →
      notifyChats env c (pre ++ chat :: suf) run0 = .stop r := by
    intro pre suf run0 r hpre hstop
    rw [notifyChats_append, hpre]
    simp [notifyChats, hstop]
  refine ⟨?_, happ, ?_⟩
  · intro r
    unfold notifyChat
    cases hN : chat.NextUpdateAt <;> cases hE : chat.NextEventId <;>
      cases hC : chat.CalendarId <;> simp
    all_goals (repeat' split)
    all_goals simp_all
    all_goals exact eq_comm
  · intro pre suf trace0 r hact hpre hstop
    simp [SendNotifications, hact, happ pre suf _ r hpre hstop]

/-- Witness of C17 (amended): the event of the first chat cannot be fetched, so
the run ends there; the second chat is not looked at. -/
theorem SendNotifications_returns_on_GetEventByID_only_witness :
    SendNotifications
        (notifyWorld
          [{ activeChat 1 "cal" 5000 with NextEventId := some "gone" }, activeChat 2 "cal" 5000])
        [] scheduledContext
      = some { ops := [], trace := [Call.GetActiveChats, Call.GetEventByID "gone" "cal"] } :=
  (SendNotifications_returns_on_GetEventByID_only
      (notifyWorld
        [{ activeChat 1 "cal" 5000 with NextEventId := some "gone" }, activeChat 2 "cal" 5000])
      scheduledContext { activeChat 1 "cal" 5000 with NextEventId := some "gone" }
      { ops := [], trace := [Call.GetActiveChats] }).2.2
    [] [activeChat 2 "cal" 5000] [] _ rfl rfl rfl

/-- A replacement acts on each part of a concatenation separately. -/
theorem replaceWithEscaped_append (old : Char) (a b : List Char) :
    replaceWithEscaped old (a ++ b) = replaceWithEscaped old a ++ replaceWithEscaped old b := by
  induction a with
  | nil => rfl
  | cons c cs ih =>
    by_cases h : c = old <;> simp [replaceWithEscaped, h, ih]

/-- A replacement leaves a text without the character as it is. -/
theorem replaceWithEscaped_absent (old : Char) (w : List Char) (h : old ∉ w) :
    replaceWithEscaped old w = w := by
  induction w with
  | nil => rfl
  | cons c cs ih =>
    have hc : c ≠ old := fun e => h (by simp [e])
    have hcs : old ∉ cs := fun e => h (by simp [e])
    simp [replaceWithEscaped, hc, ih hcs]

/-- A run of replacements acts on each part of a concatenation separately. -/
theorem replacements_append (chars : List Char) (a b : List Char) :
    chars.foldl (fun acc c => replaceWithEscaped c acc) (a ++ b)
      = chars.foldl (fun acc c => replaceWithEscaped c acc) a
        ++ chars.foldl (fun acc c => replaceWithEscaped c acc) b := by
  induction chars generalizing a b with
  | nil => rfl
  | cons c cs ih => simp only [List.foldl_cons, replaceWithEscaped_append, ih]

/-- A run of replacements leaves a text holding none of the characters as it
is. -/
theorem replacements_absent (chars : List Char) (w : List Char)
    (h : ∀ c ∈ chars, c ∉ w) :
    chars.foldl (fun acc c => replaceWithEscaped c acc) w = w := by
  induction chars with
  | nil => rfl
  | cons c cs ih =>
    simp only [List.foldl_cons]
    rw [replaceWithEscaped_absent c w (h c (by simp))]
    exact ih (fun d hd => h d (by simp [hd]))

/-- A run of replacements over distinct characters other than the backslash,
applied to one character, escapes it once when it is among them and leaves it
alone otherwise. -/
theorem replacements_single (chars : List Char) (hnodup : chars.Nodup)
    (hback : '\\' ∉ chars) (ch : Char) :
    chars.foldl (fun acc c => replaceWithEscaped c acc) [ch]
      = if ch ∈ chars then ['\\', ch] else [ch] := by
  induction chars with
  | nil => simp
  | cons c cs ih =>
    have hc : c ∉ cs := (List.nodup_cons.1 hnodup).1
    have hcs : cs.Nodup := (List.nodup_cons.1 hnodup).2
    have hb : '\\' ∉ cs := fun e => hback (by simp [e])
    have hcb : c ≠ '\\' := fun e => hback (by simp [e])
    simp only [List.foldl_cons]
    by_cases h : ch = c
    · subst h
      have hrep : replaceWithEscaped ch [ch] = ['\\', ch] := by simp [replaceWithEscaped]
      rw [hrep, replacements_absent cs ['\\', ch]]
      · simp
      · intro d hd hmem
        simp only [List.mem_cons, List.mem_singleton, List.not_mem_nil, or_false] at hmem
        rcases hmem with e | e
        · exact hb (e ▸ hd)
        · exact hc (e ▸ hd)
    · have hrep : replaceWithEscaped c [ch] = [ch] := by simp [replaceWithEscaped, h]
      rw [hrep, ih hcs hb]
      simp [h]

/-- The replacements of specialChars, applied in list order to one character,
give its escaped form. -/
theorem escapeSummary_single (ch : Char) : escapeSummary [ch] = escapeChar ch := by
  have hsplit : specialChars = '\\' :: specialChars.tail := rfl
  have hnodup : specialChars.tail.Nodup := by decide
  have hback : '\\' ∉ specialChars.tail := by decide
  unfold escapeSummary escapeChar
  rw [hsplit]
  simp only [List.foldl_cons]
  by_cases h : ch = '\\'
  · subst h
    have hrep : replaceWithEscaped '\\' ['\\'] = ['\\', '\\'] := by simp [replaceWithEscaped]
    rw [hrep, replacements_absent]
    · simp
    · intro d hd hmem
      simp only [List.mem_cons, List.mem_singleton, List.not_mem_nil, or_false, or_self] at hmem
      exact hback (hmem ▸ hd)
  · have hrep : replaceWithEscaped '\\' [ch] = [ch] := by simp [replaceWithEscaped, h]
    rw [hrep, replacements_single _ hnodup hback ch]
    simp [h]

/-- Deleting the escaping backslashes of an escaped character followed by a
text gives the character followed by the text with its backslashes deleted. -/
theorem dropEscapes_escapeChar (c : Char) (w : List Char) :
    dropEscapes (escapeChar c ++ escapeEachChar w) = c :: dropEscapes (escapeEachChar w) := by
  unfold escapeChar
  by_cases h : c ∈ specialChars
  · simp [h, dropEscapes]
  · have hc : c ≠ '\\' := by
      intro e; apply h; rw [e]; decide
    simp only [h, if_false, List.singleton_append]
    cases hrest : escapeEachChar w with
    | nil => simp [dropEscapes]
    | cons d rest => simp [dropEscapes, hc]

/-- C18: the escaped summary that EventToString builds by applying the
replacements of specialChars in list order is the summary with every special
character replaced, character by character, by a backslash followed by that
character and every other character left as it is: no special character stays
unescaped, none is escaped twice, and deleting the inserted backslashes gives
the summary back. -/
theorem escapeSummary_is_charwise (summary : List Char) :
    escapeSummary summary = escapeEachChar summary
      ∧ dropEscapes (escapeSummary summary) = summary
      ∧ (∀ (env : Collaborators) (trace : List Call) (event : Event),
          EventToString env trace event
            = event.Start.map (fun eventStart =>
                "[" ++ String.mk (escapeEachChar event.Summary.data) ++ "](" ++ event.HtmlLink
                  ++ ") \\- "
                  ++ env.DiffForHumans trace
                      (if eventStart.DateTime = "" then eventStart.Date
                       else eventStart.DateTime))) := by
  have hchar : ∀ w : List Char, escapeSummary w = escapeEachChar w := by
    intro w
    induction w with
    | nil =>
      unfold escapeSummary
      rw [replacements_absent]
      · rfl
      · intro c _ h; simp at h
    | cons c cs ih =>
      have hcons : c :: cs = [c] ++ cs := rfl
      have hsingle := escapeSummary_single c
      unfold escapeSummary at hsingle ih ⊢
      rw [hcons, replacements_append, hsingle, ih]
      rfl
  have hdrop : ∀ w : List Char, dropEscapes (escapeEachChar w) = w := by
    intro w
    induction w with
    | nil => rfl
    | cons c cs ih =>
      show dropEscapes (escapeChar c ++ escapeEachChar cs) = c :: cs
      rw [dropEscapes_escapeChar c cs, ih]
  refine ⟨hchar summary, by rw [hchar]; exact hdrop summary, ?_⟩
  intro env trace event
  cases hstart : event.Start <;> simp [EventToString, hstart, hchar]

/-- The loop of setNextUpdateTimeForChat, when it runs through: every event has
its Start set; the time is never raised; the result is at most the start of
every event after `start`; and either nothing changed because no event starts
strictly between `start` and the time at entry, or the result is the start of
the first event of the list attaining it, that event starts after `start`, and
the id is that event's. -/
theorem nextUpdateLoop_spec (timestamp : String → Int) (start : Int) (events : List Event)
    (t0 : Int) (id0 : Option String) (res : Int × Option String)
    (hrun : nextUpdateLoop timestamp start events (t0, id0) = some res) :
    (∀ e ∈ events, ∃ s, e.Start = some s)
      ∧ res.1 ≤ t0
      ∧ (∀ e ∈ events, ∀ s, e.Start = some s → start < timestamp s.DateTime →
          res.1 ≤ timestamp s.DateTime)
      ∧ ((res = (t0, id0)
            ∧ ∀ e ∈ events, ∀ s, e.Start = some s →
                ¬ (start < timestamp s.DateTime ∧ timestamp s.DateTime < t0))
          ∨ (res.1 < t0
            ∧ ∃ pre e suf s, events = pre ++ e :: suf
                ∧ e.Start = some s
                ∧ res.2 = some e.Id
                ∧ timestamp s.DateTime = res.1
                ∧ start < timestamp s.DateTime
                ∧ ∀ e1 ∈ pre, ∀ s1, e1.Start = some s1 → timestamp s1.DateTime ≠ res.1)) := by
  induction events generalizing t0 id0 with
  | nil =>
    have hres : res = (t0, id0) := by
      simp only [nextUpdateLoop, Option.some.injEq] at hrun
      exact hrun.symm
    subst hres
    refine ⟨?_, le_refl _, ?_, Or.inl ⟨rfl, ?_⟩⟩
    · intro e he; simp at he
    · intro e he; simp at he
    · intro e he; simp at he
  | cons e rest ih =>
    cases hS : e.Start with
    | none => simp [nextUpdateLoop, hS] at hrun
    | some s =>
      have hsame : ∀ s1, e.Start = some s1 → s1 = s := by
        intro s1 h1
        rw [hS] at h1
        exact (Option.some.inj h1).symm
      by_cases hq : timestamp s.DateTime > start ∧ t0 > timestamp s.DateTime
      · have hrun1 : nextUpdateLoop timestamp start rest (timestamp s.DateTime, some e.Id)
            = some res := by
          simpa [nextUpdateLoop, hS, hq] using hrun
        obtain ⟨hall, h1, h2, h3⟩ := ih _ _ hrun1
        refine ⟨?_, by omega, ?_, Or.inr ⟨by omega, ?_⟩⟩
        · intro e1 he1
          rcases List.mem_cons.1 he1 with rfl | hmem
          · exact ⟨s, hS⟩
          · exact hall e1 hmem
        · intro e1 he1 s1 hs1 hlt
          rcases List.mem_cons.1 he1 with rfl | hmem
          · rw [hsame s1 hs1]; exact h1
          · exact h2 e1 hmem s1 hs1 hlt
        · rcases h3 with ⟨heq, _⟩ | ⟨hlt, pre, e1, suf, s1, hlist, hs1, hid, hts, hs, hpre⟩
          · refine ⟨[], e, rest, s, rfl, hS, by rw [heq], by rw [heq], hq.1, ?_⟩
            intro e1 he1; simp at he1
          · refine ⟨e :: pre, e1, suf, s1, by rw [hlist]; rfl, hs1, hid, hts, hs, ?_⟩
            intro e2 he2 s2 hs2
            rcases List.mem_cons.1 he2 with rfl | hmem
            · rw [hsame s2 hs2]; omega
            · exact hpre e2 hmem s2 hs2
      · have hrun1 : nextUpdateLoop timestamp start rest (t0, id0) = some res := by
          simpa [nextUpdateLoop, hS, hq] using hrun
        obtain ⟨hall, h1, h2, h3⟩ := ih _ _ hrun1
        refine ⟨?_, h1, ?_, ?_⟩
        · intro e1 he1
          rcases List.mem_cons.1 he1 with rfl | hmem
          · exact ⟨s, hS⟩
          · exact hall e1 hmem
        · intro e1 he1 s1 hs1 hlt
          rcases List.mem_cons.1 he1 with rfl | hmem
          · rw [hsame s1 hs1] at hlt ⊢
            have : t0 ≤ timestamp s.DateTime := by
              by_contra hcon
              exact hq ⟨hlt, by omega⟩
            omega
          · exact h2 e1 hmem s1 hs1 hlt
        · rcases h3 with ⟨heq, hnone⟩ | ⟨hlt, pre, e1, suf, s1, hlist, hs1, hid, hts, hs, hpre⟩
          · refine Or.inl ⟨heq, ?_⟩
            intro e1 he1 s1 hs1
            rcases List.mem_cons.1 he1 with rfl | hmem
            · rw [hsame s1 hs1]
              intro h; exact hq ⟨h.1, h.2⟩
            · exact hnone e1 hmem s1 hs1
          · refine Or.inr ⟨hlt, e :: pre, e1, suf, s1, by rw [hlist]; rfl, hs1, hid, hts, hs, ?_⟩
            intro e2 he2 s2 hs2
            rcases List.mem_cons.1 he2 with rfl | hmem
            · rw [hsame s2 hs2]
              intro heq2
              exact hq ⟨by omega, by omega⟩
            · exact hpre e2 hmem s2 hs2

/-- Counterexample to C19 as stated: the clock reads 1000 at entry and 1001
once the events are fetched.  With no event, NextUpdateAt is 4601, past
now + 1 hour = 4600.  With one event starting at 4600, which is not strictly
before now + 1 hour, NextEventId names it instead of being nil.  Taking the
second reading 1001 for now does not help: an event starting at 1001, not
strictly after it, is chosen and NextUpdateAt = 1001 is not after now. -/
theorem setNextUpdateTimeForChat_clock_drift :
    (driftWorld []).Now [] = 1000
      ∧ (driftWorld []).Now ([] ++ [Call.GetEventsList "cal"]) = 1001
      ∧ (setNextUpdateTimeForChat (driftWorld []) [] (activeChat 42 "cal" 5000)).map
          (fun r => (r.ok, r.chat.NextUpdateAt, r.chat.NextEventId))
        = some (true, some 4601, none)
      ∧ ¬ ((4601 : Int) ≤ 1000 + 3600)
      ∧ (setNextUpdateTimeForChat (driftWorld [timedEvent "edge" "at 4600"]) []
            (activeChat 42 "cal" 5000)).map
          (fun r => (r.ok, r.chat.NextUpdateAt, r.chat.NextEventId))
        = some (true, some 4600, some "edge")
      ∧ ¬ ((4600 : Int) < 1000 + 3600)
      ∧ (setNextUpdateTimeForChat (driftWorld [timedEvent "early" "at 1001"]) []
            (activeChat 42 "cal" 5000)).map
          (fun r => (r.ok, r.chat.NextUpdateAt, r.chat.NextEventId))
        = some (true, some 1001, some "early")
      ∧ ¬ ((1001 : Int) < 1001) := by
  refine ⟨by rfl, by rfl, by rfl, by decide, by rfl, by decide, by rfl, by decide⟩

/-- C19 (amended): a successful setNextUpdateTimeForChat (the chat has a
calendar, the events are listed, each with its Start set, and the record is
saved) leaves the chat, and saves it, with NextUpdateAt = min(h, the least start
among the events starting strictly after now) and with NextEventId = the id of
the first event of the list attaining that least start when it is strictly less
than h, nil when no event starts strictly between now and h.  Here now is the
clock read at entry and h is one hour after the clock read once the events are
fetched; NextUpdateAt is at most h, it is after now whenever now < h (so
whenever the clock has not gone back), and a non-nil NextEventId names an event
that starts exactly at NextUpdateAt.  When both readings agree, h = now + 1 hour
and NextUpdateAt lies in (now, now + 1 hour]. -/
theorem setNextUpdateTimeForChat_spec (env : Collaborators) (trace : List Call) (chat : Chat)
    (calendarId : String) (events : List Event)
    (hcal : chat.CalendarId = some calendarId)
    (hevents : env.GetEventsList trace calendarId = some events)
    (hok : (setNextUpdateTimeForChat env trace chat).map SetNextResult.ok = some true) :
    ∃ r t, setNextUpdateTimeForChat env trace chat = some r
      ∧ r.ok = true
      ∧ r.trace = trace ++ [Call.GetEventsList calendarId, Call.UpdateChat r.chat]
      ∧ r.chat.NextUpdateAt = some t
      ∧ r.chat = { chat with NextEventId := r.chat.NextEventId, NextUpdateAt := some t }
      ∧ (∀ e ∈ events, ∃ s, e.Start = some s)
      ∧ t ≤ env.Now (trace ++ [Call.GetEventsList calendarId]) + 3600
      ∧ (∀ e ∈ events, ∀ s, e.Start = some s → env.Now trace < env.Timestamp s.DateTime →
          t ≤ env.Timestamp s.DateTime)
      ∧ (t = env.Now (trace ++ [Call.GetEventsList calendarId]) + 3600
          ∨ ∃ e ∈ events, ∃ s, e.Start = some s ∧ env.Now trace < env.Timestamp s.DateTime
              ∧ env.Timestamp s.DateTime = t)
      ∧ (r.chat.NextEventId = none ↔
          ∀ e ∈ events, ∀ s, e.Start = some s →
            ¬ (env.Now trace < env.Timestamp s.DateTime
              ∧ env.Timestamp s.DateTime
                  < env.Now (trace ++ [Call.GetEventsList calendarId]) + 3600))
      ∧ (∀ eventId, r.chat.NextEventId = some eventId →
          t < env.Now (trace ++ [Call.GetEventsList calendarId]) + 3600
            ∧ ∃ pre e suf s, events = pre ++ e :: suf ∧ e.Id = eventId ∧ e.Start = some s
                ∧ env.Timestamp s.DateTime = t
                ∧ ∀ e1 ∈ pre, ∀ s1, e1.Start = some s1 → env.Timestamp s1.DateTime ≠ t)
      ∧ (env.Now trace < env.Now (trace ++ [Call.GetEventsList calendarId]) + 3600 →
          env.Now trace < t)
      ∧ (env.Now trace ≤ env.Now (trace ++ [Call.GetEventsList calendarId]) →
          env.Now trace < t)
      ∧ (env.Now (trace ++ [Call.GetEventsList calendarId]) = env.Now trace →
          t ≤ env.Now trace + 3600 ∧ env.Now trace < t) := by
  cases hloop : nextUpdateLoop env.Timestamp (env.Now trace) events
      (env.Now (trace ++ [Call.GetEventsList calendarId]) + 3600, none) with
  | none => simp [setNextUpdateTimeForChat, hcal, hevents, hloop] at hok
  | some res =>
    obtain ⟨hall, h1, h2, h3⟩ := nextUpdateLoop_spec env.Timestamp (env.Now trace) events
      (env.Now (trace ++ [Call.GetEventsList calendarId]) + 3600) none res hloop
    have hrun : setNextUpdateTimeForChat env trace chat
        = some { chat := { chat with NextEventId := res.2, NextUpdateAt := some res.1 },
                 ok := true,
                 trace := trace ++ [Call.GetEventsList calendarId,
                   Call.UpdateChat
                     { chat with NextEventId := res.2, NextUpdateAt := some res.1 }] } := by
      cases hsave : env.UpdateChat (trace ++ [Call.GetEventsList calendarId])
          { chat with NextEventId := res.2, NextUpdateAt := some res.1 } with
      | false =>
        simp only [hcal] at hsave
        simp [setNextUpdateTimeForChat, hcal, hevents, hloop, hsave] at hok
      | true =>
        simp only [hcal] at hsave
        simp [setNextUpdateTimeForChat, hcal, hevents, hloop, hsave]
    have hlow : env.Now trace < env.Now (trace ++ [Call.GetEventsList calendarId]) + 3600 →
        env.Now trace < res.1 := by
      intro hlt
      rcases h3 with ⟨heq, _⟩ | ⟨_, _, e, _, s, _, _, _, hts, hs, _⟩
      · rw [heq]; exact hlt
      · omega
    refine ⟨_, res.1, hrun, rfl, rfl, rfl, rfl, hall, h1, h2, ?_, ?_, ?_, hlow,
      fun hmono => hlow (by omega), ?_⟩
    · rcases h3 with ⟨heq, _⟩ | ⟨_, pre, e, suf, s, hlist, hS, _, hts, hs, _⟩
      · exact Or.inl (by rw [heq])
      · exact Or.inr ⟨e, by rw [hlist]; simp, s, hS, hs, hts⟩
    · show res.2 = none ↔ _
      rcases h3 with ⟨heq, hnone⟩ | ⟨hlt, pre, e, suf, s, hlist, hS, hid, hts, hs, _⟩
      · rw [heq]
        exact ⟨fun _ => hnone, fun _ => rfl⟩
      · rw [hid]
        constructor
        · intro h; exact absurd h (by simp)
        · intro h
          exact absurd ⟨hs, by omega⟩ (h e (by rw [hlist]; simp) s hS)
    · intro eventId hsome
      change res.2 = some eventId at hsome
      rcases h3 with ⟨heq, _⟩ | ⟨hlt, pre, e, suf, s, hlist, hS, hid, hts, hs, hpre⟩
      · rw [heq] at hsome; exact absurd hsome (by simp)
      · rw [hid] at hsome
        exact ⟨hlt, pre, e, suf, s, hlist, Option.some.inj hsome, hS, hts, hpre⟩
    · intro hsame
      rw [hsame] at h1 hlow
      exact ⟨h1, hlow (by omega)⟩

/-- Witness of C19 (amended): at time 1000 the calendar lists events starting
at 900, 3000, 2000 and 2000; the next update is at 2000 for the first of the
two events starting then. -/
theorem setNextUpdateTimeForChat_spec_witness :
    (activeChat 42 "cal" 5000).CalendarId = some "cal"
      ∧ (agendaWorld.GetEventsList [] "cal").map (List.map Event.Id)
          = some ["past", "later", "soon", "also-soon"]
      ∧ (setNextUpdateTimeForChat agendaWorld [] (activeChat 42 "cal" 5000)).map
          SetNextResult.ok = some true
      ∧ (setNextUpdateTimeForChat agendaWorld [] (activeChat 42 "cal" 5000)).map
          (fun r => (r.chat.NextUpdateAt, r.chat.NextEventId))
        = some (some 2000, some "soon")
      ∧ ∃ r t, setNextUpdateTimeForChat agendaWorld [] (activeChat 42 "cal" 5000) = some r
          ∧ r.chat.NextUpdateAt = some t ∧ t ≤ 1000 + 3600 :=
  ⟨rfl, rfl, by rfl, by rfl, by
    obtain ⟨r, t, hr, _, _, ht, _, _, hle, _⟩ :=
      setNextUpdateTimeForChat_spec agendaWorld [] (activeChat 42 "cal" 5000) "cal" _
        rfl rfl (by rfl)
    exact ⟨r, t, hr, ht, hle⟩⟩

end GoPlanIt
